import Mathlib

/-!
Shallow embedding of the exchange server in `app.py` (single-venue CLOB
matching engine with accounts, collateral, bulk transactions and a v1
legacy path).  Python dictionaries become association lists, the module
level mutable tables become fields of `ExchangeState`, `uuid4` becomes a
`nextId` counter threaded through the state, and the wall clock becomes
an explicit `now` parameter of each time-reading handler.  Python `int`
is unbounded, so prices, quantities and timestamps are `Int`.  The
source strips surrounding whitespace from decoded string fields; inputs
of the embedded handlers stand for the already-stripped values.
-/

namespace Exchange

/-! ### Association-list dictionaries (Python `dict`) -/

def dget {κ α : Type} [DecidableEq κ] : List (κ × α) → κ → Option α
  | [], _ => none
  | (k2, v) :: rest, k => if k2 = k then some v else dget rest k

def dgetD {κ α : Type} [DecidableEq κ] (d : List (κ × α)) (k : κ) (dflt : α) : α :=
  (dget d k).getD dflt

def dput {κ α : Type} [DecidableEq κ] : List (κ × α) → κ → α → List (κ × α)
  | [], k, v => [(k, v)]
  | (k2, v2) :: rest, k, v =>
      if k2 = k then (k2, v) :: rest else (k2, v2) :: dput rest k v

def derase {κ α : Type} [DecidableEq κ] : List (κ × α) → κ → List (κ × α)
  | [], _ => []
  | (k2, v2) :: rest, k =>
      if k2 = k then derase rest k else (k2, v2) :: derase rest k

/-! ### Data model -/

/-- Legacy V1 order (module table `ORDERS`): sell-only, single `active` bit. -/
structure V1Order where
  order_id : Nat
  seller_id : String
  price : Int
  quantity : Int
  delivery_start : Int
  delivery_end : Int
  active : Bool
deriving DecidableEq

/-- V2 order (module table `V2_ORDERS`). -/
structure V2Order where
  order_id : Nat
  side : String
  owner : String
  price : Int
  quantity : Int
  delivery_start : Int
  delivery_end : Int
  status : String
  created_at : Int
  original_quantity : Int
deriving DecidableEq

/-- A trade record (module table `TRADES`); `source` is "v1" or "v2". -/
structure Trade where
  trade_id : Nat
  buyer_id : String
  seller_id : String
  price : Int
  quantity : Int
  timestamp : Int
  delivery_start : Int
  delivery_end : Int
  source : String
deriving DecidableEq

/-- The module-level mutable tables of `app.py`, plus the `nextId`
counter standing for the stream of fresh `uuid4` identifiers. -/
structure ExchangeState where
  users : List (String × String)
  tokens : List (String × String)
  orders : List V1Order
  v2_orders : List V2Order
  trades : List Trade
  balances : List (String × Int)
  collateral : List (String × Int)
  dna_samples : List (String × List String)
  nextId : Nat
deriving DecidableEq

def emptyState : ExchangeState :=
  ⟨[], [], [], [], [], [], [], [], 0⟩

/-! ### Stable sort by an `Int × Int` key (Python `list.sort(key=...)`) -/

def lexLe (a b : Int × Int) : Bool :=
  decide (a.1 < b.1) || (a.1 == b.1 && decide (a.2 ≤ b.2))

def insertByKey {α : Type} (key : α → Int × Int) (x : α) : List α → List α
  | [] => [x]
  | y :: ys => if lexLe (key x) (key y) then x :: y :: ys else y :: insertByKey key x ys

def sortByKey {α : Type} (key : α → Int × Int) : List α → List α
  | [] => []
  | x :: xs => insertByKey key x (sortByKey key xs)

/-! ### Ledger (`_apply_trade_balances`) and spec-side trade sums -/

def applyTradeBalances (bal : List (String × Int)) (buyer_id seller_id : String)
    (price quantity : Int) : List (String × Int) :=
  let amount := price * quantity
  let bal1 := dput bal buyer_id (dgetD bal buyer_id 0 - amount)
  dput bal1 seller_id (dgetD bal1 seller_id 0 + amount)

def applyTradeList (bal : List (String × Int)) (ts : List Trade) : List (String × Int) :=
  ts.foldl (fun b t => applyTradeBalances b t.buyer_id t.seller_id t.price t.quantity) bal

/-- Signed contribution of one trade to user `u`: seller is credited,
buyer is debited, by `price * quantity` (spec section 4.4). -/
def tradeDelta (u : String) (t : Trade) : Int :=
  (if t.seller_id = u then t.price * t.quantity else 0)
    - (if t.buyer_id = u then t.price * t.quantity else 0)

/-- Spec-side sum over v2-source trades only (the claimed invariant). -/
def v2TradeSum (ts : List Trade) (u : String) : Int :=
  ((ts.filter (fun t => t.source == "v2")).map (tradeDelta u)).sum

/-- Spec-side sum over all trades, v1 and v2 alike. -/
def allTradeSum (ts : List Trade) (u : String) : Int :=
  (ts.map (tradeDelta u)).sum

/-! ### Trading window (`_check_trading_window`) -/

/-- Yields `some 425` before `delivery_start - 15 days`, `some 451` after
`delivery_start - 60 s`, `none` inside the window. -/
def tradingWindowError (now ds : Int) : Option Nat :=
  if now < ds - 1296000000 then some 425
  else if ds - 60000 < now then some 451
  else none

/-! ### Potential balance and collateral gates -/

def computePotentialBalance (st : ExchangeState) (username : String) : Int :=
  let b0 := dgetD st.balances username 0
  let b1 := st.orders.foldl (fun b o =>
    if ¬ o.active then b
    else if o.seller_id ≠ username then b
    else if o.quantity ≤ 0 then b
    else b + o.price * o.quantity) b0
  st.v2_orders.foldl (fun b o =>
    if o.owner ≠ username then b
    else if o.status ≠ "ACTIVE" then b
    else if o.quantity ≤ 0 then b
    else if o.side = "buy" then b - o.price * o.quantity
    else if o.side = "sell" then b + o.price * o.quantity
    else b) b1

def checkCollateralCreate (st : ExchangeState) (username side : String)
    (price quantity : Int) : Bool :=
  match dget st.collateral username with
  | none => true
  | some coll =>
    if ¬ ((side = "buy" ∧ 0 < price) ∨ (side = "sell" ∧ price < 0)) then true
    else
      let base := computePotentialBalance st username
      let delta := if side = "buy" then -price * quantity else price * quantity
      decide (base + delta ≥ -coll)

/-- Scan of `V2_ORDERS` in `_check_collateral_modify`: accumulates the
potential balance with the target order's fields overridden, and records
the target's side when the target is visited. -/
def collateralModifyScan (username : String) (order_id : Nat)
    (new_price new_quantity : Int) :
    List V2Order → Int × Option String → Int × Option String
  | [], acc => acc
  | o :: rest, (b, sideT) =>
    if o.owner ≠ username then collateralModifyScan username order_id new_price new_quantity rest (b, sideT)
    else if o.status ≠ "ACTIVE" then collateralModifyScan username order_id new_price new_quantity rest (b, sideT)
    else if o.quantity ≤ 0 then collateralModifyScan username order_id new_price new_quantity rest (b, sideT)
    else if o.order_id = order_id then
      let b2 := if o.side = "buy" then b - new_price * new_quantity else b + new_price * new_quantity
      collateralModifyScan username order_id new_price new_quantity rest (b2, some o.side)
    else
      let b2 := if o.side = "buy" then b - o.price * o.quantity else b + o.price * o.quantity
      collateralModifyScan username order_id new_price new_quantity rest (b2, sideT)

def checkCollateralModify (st : ExchangeState) (username : String) (order_id : Nat)
    (new_price new_quantity : Int) : Bool :=
  match dget st.collateral username with
  | none => true
  | some coll =>
    let scan := collateralModifyScan username order_id new_price new_quantity
      st.v2_orders (dgetD st.balances username 0, none)
    match scan.2 with
    | none => true
    | some sideT =>
      if ¬ ((sideT = "buy" ∧ 0 < new_price) ∨ (sideT = "sell" ∧ new_price < 0)) then true
      else decide (scan.1 ≥ -coll)

/-! ### Matching (the loop in `handle_submit_order_v2`) -/

/-- Crossable opposite-side resting orders for an incoming v2 order,
filtered and stably sorted exactly as in `handle_submit_order_v2`. -/
def submitCandidates (st : ExchangeState) (sideStr : String) (price ds de : Int) :
    List V2Order :=
  if sideStr = "buy" then
    sortByKey (fun o => (o.price, o.created_at))
      (st.v2_orders.filter (fun o =>
        o.status == "ACTIVE" && o.side == "sell" && o.delivery_start == ds
          && o.delivery_end == de && decide (0 < o.quantity) && decide (o.price ≤ price)))
  else
    sortByKey (fun o => (-o.price, o.created_at))
      (st.v2_orders.filter (fun o =>
        o.status == "ACTIVE" && o.side == "buy" && o.delivery_start == ds
          && o.delivery_end == de && decide (0 < o.quantity) && decide (price ≤ o.price)))

structure MatchRes where
  book : List V2Order
  trades : List Trade
  remaining : Int
  nid : Nat
deriving DecidableEq

/-- The singleton matching loop: walks the sorted candidates, emitting
maker-priced trades of quantity `min remaining resting.quantity`,
decrementing the resting order and marking it FILLED at zero. -/
def matchLoopV2 (username sideStr : String) (ds de now : Int) :
    Int → Nat → List V2Order → MatchRes
  | remaining, nid, [] => ⟨[], [], remaining, nid⟩
  | remaining, nid, o :: rest =>
    if remaining ≤ 0 then ⟨o :: rest, [], remaining, nid⟩
    else if o.status ≠ "ACTIVE" ∨ o.quantity ≤ 0 then
      let r := matchLoopV2 username sideStr ds de now remaining nid rest
      ⟨o :: r.book, r.trades, r.remaining, r.nid⟩
    else
      let tq := min remaining o.quantity
      if tq ≤ 0 then
        let r := matchLoopV2 username sideStr ds de now remaining nid rest
        ⟨o :: r.book, r.trades, r.remaining, r.nid⟩
      else
        let buyer := if sideStr = "buy" then username else o.owner
        let seller := if sideStr = "buy" then o.owner else username
        let t : Trade := ⟨nid, buyer, seller, o.price, tq, now, ds, de, "v2"⟩
        let q2 := o.quantity - tq
        let o2 := if q2 ≤ 0 then { o with quantity := 0, status := "FILLED" }
                  else { o with quantity := q2 }
        let r := matchLoopV2 username sideStr ds de now (remaining - tq) (nid + 1) rest
        ⟨o2 :: r.book, t :: r.trades, r.remaining, r.nid⟩

/-- Write the (decremented / FILLED) candidate snapshots back into the
book; in the source the candidates alias the `V2_ORDERS` entries. -/
def writebackOrders (orders upd : List V2Order) : List V2Order :=
  orders.map (fun o =>
    match upd.find? (fun u => u.order_id == o.order_id) with
    | some u => u
    | none => o)

/-- State after a matching pass: new book, trades appended to the log,
balances updated trade by trade, id counter advanced. -/
def tradedState (st : ExchangeState) (book : List V2Order) (ts : List Trade)
    (nid : Nat) : ExchangeState :=
  { st with v2_orders := book, trades := st.trades ++ ts,
            balances := applyTradeList st.balances ts, nextId := nid }

/-- FOK preflight accumulation with the source's early `break` once the
running total reaches the incoming quantity. -/
def fokTotalPossible (quantity : Int) : Int → List V2Order → Int
  | acc, [] => acc
  | acc, o :: rest =>
    if o.status ≠ "ACTIVE" ∨ o.quantity ≤ 0 then fokTotalPossible quantity acc rest
    else
      let acc2 := acc + o.quantity
      if acc2 ≥ quantity then acc2 else fokTotalPossible quantity acc2 rest

def sumQty (l : List V2Order) : Int :=
  (l.map (fun o => o.quantity)).sum

/-! ### Response shapes -/

structure HResult where
  http : Nat
  st : ExchangeState
deriving DecidableEq

structure OrderResult where
  http : Nat
  order_id : Nat
  order_status : String
  filled_quantity : Int
  st : ExchangeState
deriving DecidableEq

/-! ### Account handlers -/

def handleRegister (st : ExchangeState) (username password : String) : HResult :=
  if username = "" ∨ password = "" then ⟨400, st⟩
  else if (dget st.users username).isSome then ⟨409, st⟩
  else ⟨204, { st with users := dput st.users username password }⟩

def handleLogin (st : ExchangeState) (username password freshToken : String) : HResult :=
  if username = "" ∨ password = "" then ⟨401, st⟩
  else if dget st.users username ≠ some password then ⟨401, st⟩
  else ⟨200, { st with tokens := dput st.tokens freshToken username }⟩

def handleChangePassword (st : ExchangeState)
    (username old_password new_password : String) : HResult :=
  if username = "" ∨ old_password = "" ∨ new_password = "" then ⟨400, st⟩
  else
    match dget st.users username with
    | none => ⟨401, st⟩
    | some pw =>
      if pw ≠ old_password then ⟨401, st⟩
      else
        let toDelete := (st.tokens.filter (fun p => p.2 == username)).map (fun p => p.1)
        ⟨204, { st with users := dput st.users username new_password,
                        tokens := toDelete.foldl (fun d t => derase d t) st.tokens }⟩

def handleSetCollateral (st : ExchangeState) (token username : String)
    (value : Int) : HResult :=
  if token ≠ "password123" then ⟨401, st⟩
  else if (dget st.users username).isNone then ⟨404, st⟩
  else ⟨204, { st with collateral := dput st.collateral username value }⟩

/-! ### Legacy V1 handlers -/

def handleSubmitOrder (st : ExchangeState) (token : String)
    (price quantity ds de : Int) : HResult :=
  match dget st.tokens token with
  | none => ⟨401, st⟩
  | some username =>
    if quantity ≤ 0 then ⟨400, st⟩
    else if ds % 3600000 ≠ 0 ∨ de % 3600000 ≠ 0 then ⟨400, st⟩
    else if de - ds ≠ 3600000 then ⟨400, st⟩
    else
      ⟨200, { st with
        orders := st.orders ++ [⟨st.nextId, username, price, quantity, ds, de, true⟩],
        nextId := st.nextId + 1 }⟩

def deactivateFirstV1 (order_id : Nat) : List V1Order → List V1Order
  | [] => []
  | o :: rest =>
    if o.order_id = order_id ∧ o.active then { o with active := false } :: rest
    else o :: deactivateFirstV1 order_id rest

def handleTakeOrder (st : ExchangeState) (token : String) (order_id : Nat)
    (now : Int) : HResult :=
  match dget st.tokens token with
  | none => ⟨401, st⟩
  | some username =>
    match st.orders.find? (fun o => o.order_id == order_id && o.active) with
    | none => ⟨404, st⟩
    | some order =>
      let t : Trade := ⟨st.nextId, username, order.seller_id, order.price,
        order.quantity, now, order.delivery_start, order.delivery_end, "v1"⟩
      ⟨200, { st with
        orders := deactivateFirstV1 order_id st.orders,
        trades := st.trades ++ [t],
        balances := applyTradeBalances st.balances username order.seller_id
          order.price order.quantity,
        nextId := st.nextId + 1 }⟩

/-! ### V2 order submission (`handle_submit_order_v2`) -/

/-- The part of `handle_submit_order_v2` after the admission gates up to
collateral: self-match prevention, the FOK preflight, the matching loop
and the execution-type residual handling. -/
def submitMatchPhase (st : ExchangeState) (username sideStr : String)
    (price quantity ds de : Int) (executionType : String) (now : Int) : OrderResult :=
  let order_id := st.nextId
  let cands := submitCandidates st sideStr price ds de
  if cands.any (fun c => c.owner == username) then ⟨412, 0, "", 0, st⟩
  else if executionType = "FOK" ∧ fokTotalPossible quantity 0 cands < quantity then
    ⟨200, order_id, "CANCELLED", 0, st⟩
  else
    let m := matchLoopV2 username sideStr ds de now quantity (st.nextId + 1) cands
    let filled := quantity - m.remaining
    let book1 := writebackOrders st.v2_orders m.book
    if executionType = "GTC" ∧ 0 < m.remaining then
      let newOrder : V2Order := ⟨order_id, sideStr, username, price, m.remaining,
        ds, de, "ACTIVE", now, quantity⟩
      ⟨200, order_id, "ACTIVE", filled,
        tradedState st (book1 ++ [newOrder]) m.trades m.nid⟩
    else
      let status :=
        if executionType = "GTC" then "FILLED"
        else if executionType = "IOC" then
          (if m.remaining ≤ 0 then "FILLED" else "CANCELLED")
        else "FILLED"
      ⟨200, order_id, status, filled, tradedState st book1 m.trades m.nid⟩

def handleSubmitOrderV2 (st : ExchangeState) (token sideStr : String)
    (price quantity ds de : Int) (executionTypeRaw : String) (now : Int) : OrderResult :=
  match dget st.tokens token with
  | none => ⟨401, 0, "", 0, st⟩
  | some username =>
    let executionType := if executionTypeRaw = "" then "GTC" else executionTypeRaw
    if executionType ≠ "GTC" ∧ executionType ≠ "IOC" ∧ executionType ≠ "FOK" then
      ⟨400, 0, "", 0, st⟩
    else if sideStr ≠ "buy" ∧ sideStr ≠ "sell" then ⟨400, 0, "", 0, st⟩
    else if quantity ≤ 0 then ⟨400, 0, "", 0, st⟩
    else if ds % 3600000 ≠ 0 ∨ de % 3600000 ≠ 0 then ⟨400, 0, "", 0, st⟩
    else if de ≤ ds then ⟨400, 0, "", 0, st⟩
    else if de - ds ≠ 3600000 then ⟨400, 0, "", 0, st⟩
    else
      match tradingWindowError now ds with
      | some s => ⟨s, 0, "", 0, st⟩
      | none =>
        if ¬ checkCollateralCreate st username sideStr price quantity then
          ⟨402, 0, "", 0, st⟩
        else
          submitMatchPhase st username sideStr price quantity ds de executionType now

/-! ### Modify (`handle_modify_order`) -/

/-- Crossable candidates for a modify: same as `submitCandidates` but at
the new price and excluding the modified order itself. -/
def modifyCandidates (st : ExchangeState) (sideStr : String)
    (new_price ds de : Int) (order_id : Nat) : List V2Order :=
  if sideStr = "buy" then
    sortByKey (fun o => (o.price, o.created_at))
      (st.v2_orders.filter (fun o =>
        o.status == "ACTIVE" && o.side == "sell" && o.delivery_start == ds
          && o.delivery_end == de && decide (0 < o.quantity)
          && !(o.order_id == order_id) && decide (o.price ≤ new_price)))
  else
    sortByKey (fun o => (-o.price, o.created_at))
      (st.v2_orders.filter (fun o =>
        o.status == "ACTIVE" && o.side == "buy" && o.delivery_start == ds
          && o.delivery_end == de && decide (0 < o.quantity)
          && !(o.order_id == order_id) && decide (new_price ≤ o.price)))

/-- The matching loop of `handle_modify_order`; identical to the submit
loop except for the redundant in-loop price recheck of the source. -/
def matchLoopModify (username sideStr : String) (new_price ds de now : Int) :
    Int → Nat → List V2Order → MatchRes
  | remaining, nid, [] => ⟨[], [], remaining, nid⟩
  | remaining, nid, o :: rest =>
    if remaining ≤ 0 then ⟨o :: rest, [], remaining, nid⟩
    else if o.status ≠ "ACTIVE" ∨ o.quantity ≤ 0 then
      let r := matchLoopModify username sideStr new_price ds de now remaining nid rest
      ⟨o :: r.book, r.trades, r.remaining, r.nid⟩
    else if (sideStr = "buy" ∧ new_price < o.price) ∨ (sideStr = "sell" ∧ o.price < new_price) then
      let r := matchLoopModify username sideStr new_price ds de now remaining nid rest
      ⟨o :: r.book, r.trades, r.remaining, r.nid⟩
    else
      let tq := min remaining o.quantity
      if tq ≤ 0 then
        let r := matchLoopModify username sideStr new_price ds de now remaining nid rest
        ⟨o :: r.book, r.trades, r.remaining, r.nid⟩
      else
        let buyer := if sideStr = "buy" then username else o.owner
        let seller := if sideStr = "buy" then o.owner else username
        let t : Trade := ⟨nid, buyer, seller, o.price, tq, now, ds, de, "v2"⟩
        let q2 := o.quantity - tq
        let o2 := if q2 ≤ 0 then { o with quantity := 0, status := "FILLED" }
                  else { o with quantity := q2 }
        let r := matchLoopModify username sideStr new_price ds de now (remaining - tq) (nid + 1) rest
        ⟨o2 :: r.book, t :: r.trades, r.remaining, r.nid⟩

def updateFirstOrder (order_id : Nat) (f : V2Order → V2Order) :
    List V2Order → List V2Order
  | [] => []
  | o :: rest =>
    if o.order_id = order_id then f o :: rest
    else o :: updateFirstOrder order_id f rest

/-- The part of `handle_modify_order` after ownership passes: self-match
prevention, collateral, the in-place rewrite and the matching loop. -/
def modifyMatchPhase (st : ExchangeState) (username : String) (order : V2Order)
    (order_id : Nat) (new_price new_quantity now : Int) : OrderResult :=
  let cands := modifyCandidates st order.side new_price
    order.delivery_start order.delivery_end order_id
  if cands.any (fun c => c.owner == username) then ⟨412, 0, "", 0, st⟩
  else if ¬ checkCollateralModify st username order_id new_price new_quantity then
    ⟨402, 0, "", 0, st⟩
  else
    let newOrig := (order.original_quantity - order.quantity) + new_quantity
    let createdAt := if new_price ≠ order.price ∨ order.quantity < new_quantity
                     then now else order.created_at
    let m := matchLoopModify username order.side new_price
      order.delivery_start order.delivery_end now new_quantity st.nextId cands
    let filled := new_quantity - m.remaining
    let status := if m.remaining ≤ 0 then "FILLED" else "ACTIVE"
    let finalQty := if m.remaining ≤ 0 then 0 else m.remaining
    let book1 := writebackOrders st.v2_orders m.book
    let book2 := updateFirstOrder order_id (fun o =>
      { o with price := new_price, quantity := finalQty, status := status,
               created_at := createdAt, original_quantity := newOrig }) book1
    ⟨200, order_id, status, filled, tradedState st book2 m.trades m.nid⟩

def handleModifyOrder (st : ExchangeState) (token : String) (order_id : Nat)
    (new_price new_quantity now : Int) : OrderResult :=
  match dget st.tokens token with
  | none => ⟨401, 0, "", 0, st⟩
  | some username =>
    if new_quantity ≤ 0 then ⟨400, 0, "", 0, st⟩
    else
      match st.v2_orders.find? (fun o => o.order_id == order_id) with
      | none => ⟨404, 0, "", 0, st⟩
      | some order =>
        if order.status ≠ "ACTIVE" ∨ order.quantity ≤ 0 then ⟨404, 0, "", 0, st⟩
        else if order.owner ≠ username then ⟨403, 0, "", 0, st⟩
        else modifyMatchPhase st username order order_id new_price new_quantity now

/-! ### Cancel (`handle_cancel_order`) — note: the source sets the status
to CANCELLED but does not zero the quantity. -/

def handleCancelOrder (st : ExchangeState) (token : String) (order_id : Nat) : HResult :=
  match dget st.tokens token with
  | none => ⟨401, st⟩
  | some username =>
    match st.v2_orders.find? (fun o => o.order_id == order_id) with
    | none => ⟨404, st⟩
    | some order =>
      if order.status ≠ "ACTIVE" ∨ order.quantity ≤ 0 then ⟨404, st⟩
      else if order.owner ≠ username then ⟨403, st⟩
      else
        let book := updateFirstOrder order_id
          (fun o => { o with status := "CANCELLED" }) st.v2_orders
        ⟨204, { st with v2_orders := book }⟩

/-! ### Bulk operations (`handle_bulk_operations` and the `_bulk_sim_*`
helpers).  Simulation stages results without touching the tables; the
commit phase then replays the staged results. -/

/-- One staged result dict.  Fields the source's dicts omit are `none`
(`status`, `order`, `created_at`) or their `.get` defaults (`trades`). -/
structure StagedOp where
  action : String
  order_id : Nat
  status : Option String
  order : Option V2Order
  trades : List Trade
  new_price : Int
  new_quantity : Int
  created_at : Option Int
deriving DecidableEq

/-- Shadow-book entry built by `_build_sim_order_book` (a fresh dict,
not aliasing the real book). -/
structure SimOrder where
  order_id : Nat
  side : String
  owner : String
  price : Int
  quantity : Int
  created_at : Int
deriving DecidableEq

/-- First staged op that cancels or modifies the given id (the inner
`break` loop of `_build_sim_order_book`). -/
def firstStagedFor (order_id : Nat) : List StagedOp → Option StagedOp
  | [] => none
  | s :: rest =>
    if s.order_id = order_id ∧ (s.action = "cancel" ∨ s.action = "modify")
    then some s
    else firstStagedFor order_id rest

def simBookFromReal (ds de : Int) (staged : List StagedOp) (excludeId : Option Nat) :
    List V2Order → List SimOrder
  | [] => []
  | o :: rest =>
    let tail := simBookFromReal ds de staged excludeId rest
    if o.status ≠ "ACTIVE" then tail
    else if o.quantity ≤ 0 then tail
    else if o.delivery_start ≠ ds ∨ o.delivery_end ≠ de then tail
    else if excludeId = some o.order_id then tail
    else
      match firstStagedFor o.order_id staged with
      | some sop =>
        if sop.action = "cancel" then tail
        else ⟨o.order_id, o.side, o.owner, sop.new_price, sop.new_quantity,
          sop.created_at.getD o.created_at⟩ :: tail
      | none => ⟨o.order_id, o.side, o.owner, o.price, o.quantity, o.created_at⟩ :: tail

def simBookFromStaged : List StagedOp → List SimOrder
  | [] => []
  | sop :: rest =>
    let tail := simBookFromStaged rest
    if sop.action = "create" then
      match sop.order with
      | some od => ⟨od.order_id, od.side, od.owner, od.price, od.quantity,
          od.created_at⟩ :: tail
      | none => tail
    else tail

def buildSimOrderBook (st : ExchangeState) (ds de : Int) (staged : List StagedOp)
    (excludeId : Option Nat) : List SimOrder :=
  simBookFromReal ds de staged excludeId st.v2_orders ++ simBookFromStaged staged

def findStagedCreate (order_id : Nat) : List StagedOp → Option V2Order
  | [] => none
  | s :: rest =>
    match s.order with
    | some od =>
      if s.action = "create" ∧ od.order_id = order_id then some od
      else findStagedCreate order_id rest
    | none => findStagedCreate order_id rest

def findOrderInSim (st : ExchangeState) (order_id : Nat) (ds de : Int)
    (staged : List StagedOp) : Option V2Order :=
  match findStagedCreate order_id staged with
  | some od => some od
  | none =>
    match st.v2_orders.find? (fun o => o.order_id == order_id) with
    | none => none
    | some o =>
      if o.status ≠ "ACTIVE" ∨ o.quantity ≤ 0 then none
      else if o.delivery_start ≠ ds ∨ o.delivery_end ≠ de then none
      else some o

/-- Embeds `_check_collateral_in_sim_state`. -/
def checkCollateralInSimState (st : ExchangeState) (username sideStr : String)
    (price quantity : Int) (staged : List StagedOp) : Bool :=
  match dget st.collateral username with
  | none => true
  | some coll =>
    if ¬ ((sideStr = "buy" ∧ 0 < price) ∨ (sideStr = "sell" ∧ price < 0)) then true
    else
      let b0 := dgetD st.balances username 0
      let b1 := staged.foldl (fun b sop => sop.trades.foldl (fun b t =>
        if t.buyer_id = username then b - t.price * t.quantity
        else if t.seller_id = username then b + t.price * t.quantity
        else b) b) b0
      let b2 := st.v2_orders.foldl (fun b o =>
        if o.owner ≠ username then b
        else if o.status ≠ "ACTIVE" then b
        else if o.quantity ≤ 0 then b
        else if staged.any (fun sop => sop.order_id == o.order_id
            && (sop.action == "modify" || sop.action == "cancel")) then b
        else if o.side = "buy" then b - o.price * o.quantity
        else b + o.price * o.quantity) b1
      let b3 := staged.foldl (fun b sop =>
        if sop.action = "create" then
          match sop.order with
          | some od =>
            if od.owner = username then
              (if od.side = "buy" then b - od.price * od.quantity
               else b + od.price * od.quantity)
            else b
          | none => b
        else if sop.action = "modify" then
          match st.v2_orders.find? (fun o =>
              o.order_id == sop.order_id && o.owner == username) with
          | some o =>
            if o.side = "buy" then b - sop.new_price * sop.new_quantity
            else b + sop.new_price * sop.new_quantity
          | none => b
        else b) b2
      let b4 := if sideStr = "buy" then b3 - price * quantity else b3 + price * quantity
      decide (b4 ≥ -coll)

/-- Embeds `_check_collateral_modify_in_sim`. -/
def checkCollateralModifyInSim (st : ExchangeState) (username : String)
    (order_id : Nat) (new_price new_quantity : Int) (staged : List StagedOp) : Bool :=
  match dget st.collateral username with
  | none => true
  | some coll =>
    let target :=
      match st.v2_orders.find? (fun o =>
          o.order_id == order_id && o.owner == username) with
      | some o => some o
      | none => findStagedCreate order_id staged
    match target with
    | none => true
    | some tgt =>
      if ¬ ((tgt.side = "buy" ∧ 0 < new_price) ∨ (tgt.side = "sell" ∧ new_price < 0))
      then true
      else
        let b0 := dgetD st.balances username 0
        let b1 := staged.foldl (fun b sop => sop.trades.foldl (fun b t =>
          if t.buyer_id = username then b - t.price * t.quantity
          else if t.seller_id = username then b + t.price * t.quantity
          else b) b) b0
        let b2 := st.v2_orders.foldl (fun b o =>
          if o.owner ≠ username then b
          else if o.status ≠ "ACTIVE" then b
          else if o.quantity ≤ 0 then b
          else if o.order_id = order_id then
            (if o.side = "buy" then b - new_price * new_quantity
             else b + new_price * new_quantity)
          else if staged.any (fun sop => sop.order_id == o.order_id
              && (sop.action == "modify" || sop.action == "cancel")) then b
          else if o.side = "buy" then b - o.price * o.quantity
          else b + o.price * o.quantity) b1
        let b3 := staged.foldl (fun b sop =>
          if sop.action = "create" then
            match sop.order with
            | some od =>
              if od.owner = username ∧ od.order_id ≠ order_id then
                (if od.side = "buy" then b - od.price * od.quantity
                 else b + od.price * od.quantity)
              else b
            | none => b
          else b) b2
        decide (b3 ≥ -coll)

/-- Simulation matching loop over shadow-book entries: the entries are
local copies, so only the staged trades and the residual matter. -/
structure SimMatchRes where
  trades : List Trade
  remaining : Int
  nid : Nat
deriving DecidableEq

def simMatchLoop (username sideStr : String) (ds de now : Int) :
    Int → Nat → List SimOrder → SimMatchRes
  | remaining, nid, [] => ⟨[], remaining, nid⟩
  | remaining, nid, o :: rest =>
    if remaining ≤ 0 then ⟨[], remaining, nid⟩
    else if o.quantity ≤ 0 then simMatchLoop username sideStr ds de now remaining nid rest
    else
      let tq := min remaining o.quantity
      if tq ≤ 0 then simMatchLoop username sideStr ds de now remaining nid rest
      else
        let buyer := if sideStr = "buy" then username else o.owner
        let seller := if sideStr = "buy" then o.owner else username
        let t : Trade := ⟨nid, buyer, seller, o.price, tq, now, ds, de, "v2"⟩
        let r := simMatchLoop username sideStr ds de now (remaining - tq) (nid + 1) rest
        ⟨t :: r.trades, r.remaining, r.nid⟩

def simCandidates (simBook : List SimOrder) (sideStr : String) (price : Int) :
    List SimOrder :=
  if sideStr = "buy" then
    sortByKey (fun o => (o.price, o.created_at))
      (simBook.filter (fun o => o.side == "sell" && decide (o.price ≤ price)))
  else
    sortByKey (fun o => (-o.price, o.created_at))
      (simBook.filter (fun o => o.side == "buy" && decide (price ≤ o.price)))

/-- Embeds `_bulk_sim_create`: returns the staged result and the advanced id
counter, or the failure status. -/
def bulkSimCreate (st : ExchangeState) (now : Int) (username sideStr : String)
    (price quantity : Int) (executionTypeRaw : String) (ds de : Int)
    (staged : List StagedOp) (nid : Nat) : Except Nat (StagedOp × Nat) :=
  let executionType := if executionTypeRaw = "" then "GTC" else executionTypeRaw
  if sideStr ≠ "buy" ∧ sideStr ≠ "sell" then .error 400
  else if quantity ≤ 0 then .error 400
  else if executionType ≠ "GTC" ∧ executionType ≠ "IOC" ∧ executionType ≠ "FOK" then
    .error 400
  else if ¬ checkCollateralInSimState st username sideStr price quantity staged then
    .error 402
  else
    let order_id := nid
    let simBook := buildSimOrderBook st ds de staged none
    let cands := simCandidates simBook sideStr price
    if cands.any (fun c => c.owner == username) then .error 412
    else
      let m := simMatchLoop username sideStr ds de now quantity (nid + 1) cands
      if executionType = "FOK" ∧ 0 < m.remaining then
        .ok (⟨"create", order_id, some "CANCELLED", none, [], 0, 0, none⟩, m.nid)
      else if executionType = "GTC" ∧ 0 < m.remaining then
        let od : V2Order := ⟨order_id, sideStr, username, price, m.remaining,
          ds, de, "ACTIVE", now, quantity⟩
        .ok (⟨"create", order_id, some "ACTIVE", some od, m.trades, 0, 0, none⟩, m.nid)
      else
        let status :=
          if executionType = "GTC" then "FILLED"
          else if executionType = "IOC" then
            (if m.remaining ≤ 0 then "FILLED" else "CANCELLED")
          else "FILLED"
        .ok (⟨"create", order_id, some status, none, m.trades, 0, 0, none⟩, m.nid)

/-- Embeds `_bulk_sim_modify`. -/
def bulkSimModify (st : ExchangeState) (now : Int) (username : String)
    (order_id : Nat) (new_price new_quantity ds de : Int)
    (staged : List StagedOp) (nid : Nat) : Except Nat (StagedOp × Nat) :=
  if new_quantity ≤ 0 then .error 400
  else
    match findOrderInSim st order_id ds de staged with
    | none => .error 404
    | some order =>
      if order.owner ≠ username then .error 403
      else if staged.any (fun sop =>
          sop.action == "cancel" && sop.order_id == order_id) then .error 404
      else
        let simBook := buildSimOrderBook st ds de staged (some order_id)
        let cands := simCandidates simBook order.side new_price
        if cands.any (fun c => c.owner == username) then .error 412
        else if ¬ checkCollateralModifyInSim st username order_id
            new_price new_quantity staged then .error 402
        else
          let m := simMatchLoop username order.side ds de now new_quantity nid cands
          let status := if m.remaining ≤ 0 then "FILLED" else "ACTIVE"
          let createdAt := if new_price ≠ order.price ∨ order.quantity < new_quantity
            then some now else none
          .ok (⟨"modify", order_id, some status, none, m.trades,
            new_price, m.remaining, createdAt⟩, m.nid)

/-- Embeds `_bulk_sim_cancel`. -/
def bulkSimCancel (st : ExchangeState) (username : String) (order_id : Nat)
    (ds de : Int) (staged : List StagedOp) (nid : Nat) : Except Nat (StagedOp × Nat) :=
  match findOrderInSim st order_id ds de staged with
  | none => .error 404
  | some order =>
    if order.owner ≠ username then .error 403
    else if staged.any (fun sop =>
        sop.action == "cancel" && sop.order_id == order_id) then .error 404
    else .ok (⟨"cancel", order_id, none, none, [], 0, 0, none⟩, nid)

/-! ### The batch request shape and the two phases -/

inductive BulkOp where
  | create (participant_token sideStr : String) (price quantity : Int)
      (executionTypeRaw : String)
  | modify (participant_token : String) (order_id : Nat) (price quantity : Int)
  | cancel (participant_token : String) (order_id : Nat)
deriving DecidableEq

structure BulkContract where
  delivery_start : Int
  delivery_end : Int
  operations : List BulkOp
deriving DecidableEq

def simulateOps (st : ExchangeState) (now ds de : Int) :
    List BulkOp → List StagedOp → Nat → Except Nat (List StagedOp × Nat)
  | [], staged, nid => .ok (staged, nid)
  | op :: rest, staged, nid =>
    let tok := match op with
      | .create t _ _ _ _ => t
      | .modify t _ _ _ => t
      | .cancel t _ => t
    match dget st.tokens tok with
    | none => .error 401
    | some username =>
      let r := match op with
        | .create _ sideStr price quantity e =>
          bulkSimCreate st now username sideStr price quantity e ds de staged nid
        | .modify _ oid price quantity =>
          bulkSimModify st now username oid price quantity ds de staged nid
        | .cancel _ oid =>
          bulkSimCancel st username oid ds de staged nid
      match r with
      | .error s => .error s
      | .ok (sop, nid2) => simulateOps st now ds de rest (staged ++ [sop]) nid2

def simulateContracts (st : ExchangeState) (now : Int) :
    List BulkContract → List StagedOp → Nat → Except Nat (List StagedOp × Nat)
  | [], staged, nid => .ok (staged, nid)
  | c :: rest, staged, nid =>
    if c.operations = [] then .error 400
    else if c.delivery_start % 3600000 ≠ 0 ∨ c.delivery_end % 3600000 ≠ 0 then .error 400
    else if c.delivery_end ≤ c.delivery_start
        ∨ c.delivery_end - c.delivery_start ≠ 3600000 then .error 400
    else
      match tradingWindowError now c.delivery_start with
      | some s => .error s
      | none =>
        match simulateOps st now c.delivery_start c.delivery_end
            c.operations staged nid with
        | .error s => .error s
        | .ok (staged2, nid2) => simulateContracts st now rest staged2 nid2

/-- Commit one staged result against the real tables (the commit loop
body of `handle_bulk_operations`). -/
def commitOne (st : ExchangeState) (s : StagedOp) : ExchangeState :=
  if s.action = "create" then
    let st1 :=
      match s.order with
      | some od =>
        if s.status = some "ACTIVE" then { st with v2_orders := st.v2_orders ++ [od] }
        else st
      | none => st
    { st1 with trades := st1.trades ++ s.trades,
               balances := applyTradeList st1.balances s.trades }
  else if s.action = "modify" then
    let book := updateFirstOrder s.order_id (fun o =>
      { o with price := s.new_price, quantity := s.new_quantity,
               status := s.status.getD o.status,
               created_at := s.created_at.getD o.created_at }) st.v2_orders
    { st with v2_orders := book,
              trades := st.trades ++ s.trades,
              balances := applyTradeList st.balances s.trades }
  else if s.action = "cancel" then
    let book := updateFirstOrder s.order_id (fun o =>
      { o with status := "CANCELLED", quantity := 0 }) st.v2_orders
    { st with v2_orders := book }
  else st

def commitStaged (st : ExchangeState) : List StagedOp → ExchangeState
  | [] => st
  | s :: rest => commitStaged (commitOne st s) rest

structure BulkEntry where
  optype : String
  order_id : Nat
  status : Option String
deriving DecidableEq

def buildBulkResults (staged : List StagedOp) : List BulkEntry :=
  staged.map (fun s => ⟨s.action, s.order_id, s.status⟩)

structure BulkResult where
  http : Nat
  results : List BulkEntry
  st : ExchangeState
deriving DecidableEq

def handleBulkOperations (st : ExchangeState) (now : Int)
    (contracts : List BulkContract) : BulkResult :=
  if contracts = [] then ⟨400, [], st⟩
  else
    match simulateContracts st now contracts [] st.nextId with
    | .error s => ⟨s, [], st⟩
    | .ok (staged, nid) =>
      ⟨200, buildBulkResults staged, { commitStaged st staged with nextId := nid }⟩

/-! ### DNA validation and matching (`_validate_dna_sample`,
`_split_codons`, `_codon_edit_distance_bounded`, `_dna_matches`) -/

def validCodonChar (c : Char) : Bool :=
  c == 'C' || c == 'G' || c == 'A' || c == 'T'

def validateDnaSample (dna : String) : Bool :=
  !(dna == "") && dna.length % 3 == 0 && dna.toList.all validCodonChar

/-- Three-character slices (`_split_codons`); a short final slice is kept,
as with Python slicing. -/
def chunk3 : List Char → List (List Char)
  | [] => []
  | [a] => [[a]]
  | [a, b] => [[a, b]]
  | a :: b :: c :: rest => [a, b, c] :: chunk3 rest

def splitCodons (dna : String) : List (List Char) :=
  chunk3 dna.toList

/-- One cell of the banded DP: insert / delete / substitute, with the
source's out-of-band default `max_diff + 1`. -/
def cedCell (refC sampC : List (List Char)) (maxDiff : Int)
    (prev curr : List (Nat × Int)) (i j jmin : Nat) : Int :=
  let ins := if jmin < j then dgetD curr (j - 1) (maxDiff + 1) + 1 else maxDiff + 1
  let dele := dgetD prev j (maxDiff + 1) + 1
  let sub :=
    if j = 0 then maxDiff + 1
    else
      match dget prev (j - 1) with
      | some v => v + (if refC.getD (i - 1) [] = sampC.getD (j - 1) [] then 0 else 1)
      | none => maxDiff + 1
  min ins (min dele sub)

def listMinD : List Int → Int → Int
  | [], d => d
  | x :: xs, _ => xs.foldl min x

/-- Row loop of the banded DP with the source's early return once a
whole row exceeds the band. -/
def cedRows (refC sampC : List (List Char)) (maxDiff : Int) (m : Nat) :
    List Nat → List (Nat × Int) → Except Int (List (Nat × Int))
  | [], prev => .ok prev
  | i :: rest, prev =>
    let jmin := ((i : Int) - maxDiff).toNat
    let jmax := min m ((i : Int) + maxDiff).toNat
    let js := List.range' jmin (jmax + 1 - jmin)
    let curr := js.foldl
      (fun curr j => dput curr j (cedCell refC sampC maxDiff prev curr i j jmin)) []
    if listMinD (curr.map (fun p => p.2)) (maxDiff + 1) > maxDiff then
      .error (maxDiff + 1)
    else cedRows refC sampC maxDiff m rest curr

def codonEditDistanceBounded (refC sampC : List (List Char)) (maxDiff : Int) : Int :=
  let n := refC.length
  let m := sampC.length
  if maxDiff < 0 then maxDiff + 1
  else if ((((n : Int) - m).natAbs : Int)) > maxDiff then maxDiff + 1
  else if n = 0 then (m : Int)
  else if m = 0 then (n : Int)
  else
    let prev0 : List (Nat × Int) :=
      (List.range (min m maxDiff.toNat + 1)).map (fun j => (j, (j : Int)))
    match cedRows refC sampC maxDiff m (List.range' 1 n) prev0 with
    | .error v => v
    | .ok prev => dgetD prev m (maxDiff + 1)

def dnaMatches (reference submitted : String) : Bool :=
  let refC := splitCodons reference
  let subC := splitCodons submitted
  let allowed : Nat := refC.length / 100000
  decide (codonEditDistanceBounded refC subC (allowed : Int) ≤ (allowed : Int))

/-! ### DNA endpoints -/

def handleDnaSubmit (st : ExchangeState) (username password dna_sample : String) :
    HResult :=
  if username = "" ∨ password = "" ∨ dna_sample = "" then ⟨400, st⟩
  else if dget st.users username ≠ some password then ⟨401, st⟩
  else if ¬ validateDnaSample dna_sample then ⟨400, st⟩
  else
    let samples := dgetD st.dna_samples username []
    let samples2 := if dna_sample ∈ samples then samples else samples ++ [dna_sample]
    ⟨204, { st with dna_samples := dput st.dna_samples username samples2 }⟩

def handleDnaLogin (st : ExchangeState) (username dna_sample freshToken : String) :
    HResult :=
  if username = "" ∨ dna_sample = "" then ⟨400, st⟩
  else if (dget st.users username).isNone then ⟨401, st⟩
  else
    match dget st.dna_samples username with
    | none => ⟨401, st⟩
    | some samples =>
      if samples = [] then ⟨401, st⟩
      else if ¬ validateDnaSample dna_sample then ⟨400, st⟩
      else if samples.any (fun r => dnaMatches r dna_sample) then
        ⟨200, { st with tokens := dput st.tokens freshToken username }⟩
      else ⟨401, st⟩

/-! ### The state-mutating operations of the external interface, as one
step type (used to state whole-system invariants) -/

inductive EOp where
  | register (username password : String)
  | login (username password freshToken : String)
  | changePassword (username old_password new_password : String)
  | dnaSubmit (username password dna_sample : String)
  | dnaLogin (username dna_sample freshToken : String)
  | setCollateral (token username : String) (value : Int)
  | submitV1 (token : String) (price quantity ds de : Int)
  | takeOrder (token : String) (order_id : Nat) (now : Int)
  | submitV2 (token sideStr : String) (price quantity ds de : Int)
      (executionTypeRaw : String) (now : Int)
  | modifyOrder (token : String) (order_id : Nat) (price quantity now : Int)
  | cancelOrder (token : String) (order_id : Nat)
  | bulk (now : Int) (contracts : List BulkContract)
deriving DecidableEq

def applyOp (op : EOp) (st : ExchangeState) : ExchangeState :=
  match op with
  | .register u p => (handleRegister st u p).st
  | .login u p tk => (handleLogin st u p tk).st
  | .changePassword u op2 np => (handleChangePassword st u op2 np).st
  | .dnaSubmit u p d => (handleDnaSubmit st u p d).st
  | .dnaLogin u d tk => (handleDnaLogin st u d tk).st
  | .setCollateral tk u v => (handleSetCollateral st tk u v).st
  | .submitV1 tk p q ds de => (handleSubmitOrder st tk p q ds de).st
  | .takeOrder tk oid now => (handleTakeOrder st tk oid now).st
  | .submitV2 tk sd p q ds de e now => (handleSubmitOrderV2 st tk sd p q ds de e now).st
  | .modifyOrder tk oid p q now => (handleModifyOrder st tk oid p q now).st
  | .cancelOrder tk oid => (handleCancelOrder st tk oid).st
  | .bulk now cs => (handleBulkOperations st now cs).st

/-- The claimed relation between the ledger and the trade log, for one
user: balance equals the signed sum over the listed trades. -/
def balancesMatch (st : ExchangeState) : Prop :=
  ∀ u : String, dgetD st.balances u 0 = allTradeSum st.trades u

def tradeQtySum (ts : List Trade) : Int :=
  (ts.map (fun t => t.quantity)).sum

/-- Price-quantity projection of a trade, used to compare the trades
of the embedded matching loop with the spec's reference loop. -/
def tradeQtyPair (t : Trade) : Int × Int := (t.price, t.quantity)

/-- Reference matching loop following the spec's wording (section 4.2):
while the incoming remainder is positive, trade `min remaining quantity`
units at the resting order's price, walking the crossable book in
priority order.  Used to compare the embedded loop against the spec. -/
def specMatchTrades : Int → List (Int × Int) → List (Int × Int)
  | _, [] => []
  | r, (p, q) :: rest =>
    if r ≤ 0 then []
    else (p, min r q) :: specMatchTrades (r - min r q) rest

/-! ### Concrete scenario states used by the closed theorems -/

/-- An hour-aligned delivery start exactly 15 days after epoch, so that
`now` values in `[0, ds0 - 60000]` lie inside the trading window. -/
def ds0 : Int := 1296000000

def de0 : Int := 1299600000

/-- Three registered, logged-in users and otherwise empty tables. -/
def baseSt : ExchangeState :=
  { emptyState with
    users := [("A", "pa"), ("B", "pb"), ("C", "pc")],
    tokens := [("tA", "A"), ("tB", "B"), ("tC", "C")] }

/-- The base state with one resting ACTIVE sell of user A: 5 units at 100. -/
def sellBookSt : ExchangeState :=
  { baseSt with
    v2_orders := [⟨1, "sell", "A", 100, 5, ds0, de0, "ACTIVE", 0, 5⟩],
    nextId := 2 }

/-- The book state with a zero collateral limit for A, so that A buying
2 units at 600 both crosses A's own sell and breaches collateral. -/
def collSt : ExchangeState :=
  { sellBookSt with collateral := [("A", 0)] }

/-- A contract starting 30 days after epoch: at `now = 0` it is before
its trading window opens. -/
def lateDs : Int := 2592000000

def lateDe : Int := 2595600000

def lateSt : ExchangeState :=
  { baseSt with
    v2_orders := [⟨1, "sell", "A", 100, 5, lateDs, lateDe, "ACTIVE", 0, 5⟩],
    nextId := 2 }

/-- C1 scenario: A submits a legacy V1 sell (5 @ 100), B takes it. -/
def v1SubmittedSt : ExchangeState :=
  (handleSubmitOrder baseSt "tA" 100 5 ds0 de0).st

def v1TakenSt : ExchangeState :=
  (handleTakeOrder v1SubmittedSt "tB" 0 500).st

/-- Scenario S1: A sells 10 @ 100 at t=1000, B sells 10 @ 100 at
t=2000, C buys 15 @ 100 at t=3000. -/
def s1Step1 : ExchangeState :=
  (handleSubmitOrderV2 baseSt "tA" "sell" 100 10 ds0 de0 "GTC" 1000).st

def s1Step2 : ExchangeState :=
  (handleSubmitOrderV2 s1Step1 "tB" "sell" 100 10 ds0 de0 "GTC" 2000).st

def s1Result : OrderResult :=
  handleSubmitOrderV2 s1Step2 "tC" "buy" 100 15 ds0 de0 "GTC" 3000

/-- The base state with a stored DNA reference for A. -/
def dnaSt : ExchangeState :=
  { baseSt with dna_samples := [("A", ["ACG"])] }

/-! ## Dictionary lemmas -/

theorem dget_dput {κ α : Type} [DecidableEq κ] (d : List (κ × α)) (k t : κ) (v : α) :
    dget (dput d k v) t = if t = k then some v else dget d t := by
  induction d with
  | nil =>
    simp only [dput, dget]
    split_ifs <;> simp_all
  | cons p rest ih =>
    obtain ⟨k2, v2⟩ := p
    by_cases h2 : k2 = k
    · subst h2
      simp only [dput, dget, if_true, eq_self_iff_true]
      split_ifs <;> first | rfl | simp_all
    · simp only [dput, if_neg h2]
      simp only [dget, ih]
      split_ifs <;> first | rfl | simp_all

theorem dgetD_dput {κ α : Type} [DecidableEq κ] (d : List (κ × α)) (k t : κ)
    (v dflt : α) :
    dgetD (dput d k v) t dflt = if t = k then v else dgetD d t dflt := by
  unfold dgetD
  rw [dget_dput]
  by_cases h : t = k <;> simp [h]

theorem dget_derase {κ α : Type} [DecidableEq κ] (d : List (κ × α)) (k t : κ) :
    dget (derase d k) t = if t = k then none else dget d t := by
  induction d with
  | nil =>
    simp only [derase, dget]
    split_ifs <;> rfl
  | cons p rest ih =>
    obtain ⟨k2, v2⟩ := p
    by_cases h2 : k2 = k
    · subst h2
      simp only [derase, dget, if_true, eq_self_iff_true, ih]
      split_ifs <;> first | rfl | simp_all
    · simp only [derase, if_neg h2]
      simp only [dget, ih]
      split_ifs <;> first | rfl | simp_all

theorem dget_foldl_derase {κ α : Type} [DecidableEq κ] (ks : List κ)
    (d : List (κ × α)) (t : κ) :
    dget (ks.foldl (fun d k => derase d k) d) t
      = if t ∈ ks then none else dget d t := by
  induction ks generalizing d with
  | nil => simp
  | cons k rest ih =>
    rw [List.foldl_cons, ih, dget_derase]
    by_cases h1 : t ∈ rest <;> by_cases h2 : t = k <;> simp [h1, h2]

theorem dget_mem {κ α : Type} [DecidableEq κ] {d : List (κ × α)} {t : κ} {v : α}
    (h : dget d t = some v) : (t, v) ∈ d := by
  induction d with
  | nil => simp [dget] at h
  | cons p rest ih =>
    obtain ⟨k2, v2⟩ := p
    by_cases h2 : k2 = t
    · subst h2
      simp [dget] at h
      simp [h]
    · simp [dget, h2] at h
      exact List.mem_cons_of_mem _ (ih h)

theorem dget_of_mem_nodup {κ α : Type} [DecidableEq κ] {d : List (κ × α)}
    {t : κ} {v : α} (hnd : (d.map Prod.fst).Nodup) (h : (t, v) ∈ d) :
    dget d t = some v := by
  induction d with
  | nil => simp at h
  | cons p rest ih =>
    obtain ⟨k2, v2⟩ := p
    simp only [List.map_cons, List.nodup_cons] at hnd
    rcases List.mem_cons.mp h with h1 | h1
    · injection h1 with h1a h1b
      subst h1a
      subst h1b
      simp [dget]
    · by_cases h2 : k2 = t
      · subst h2
        exact absurd (List.mem_map_of_mem Prod.fst h1) hnd.1
      · simp only [dget, if_neg h2]
        exact ih hnd.2 h1

/-! ## Ledger lemmas -/

theorem applyTradeBalances_getD (b : List (String × Int)) (buyer seller u : String)
    (p q : Int) :
    dgetD (applyTradeBalances b buyer seller p q) u 0
      = dgetD b u 0 + (if seller = u then p * q else 0)
          - (if buyer = u then p * q else 0) := by
  simp only [applyTradeBalances, dgetD_dput]
  by_cases hs : u = seller
  · subst hs
    by_cases hb : u = buyer
    · subst hb
      simp
    · have hb2 : ¬ buyer = u := fun hh => hb hh.symm
      simp [hb, hb2]
  · have hs2 : ¬ seller = u := fun hh => hs hh.symm
    by_cases hb : u = buyer
    · subst hb
      simp [hs, hs2]
    · have hb2 : ¬ buyer = u := fun hh => hb hh.symm
      simp [hs, hb, hs2, hb2]

theorem allTradeSum_append (ts ts2 : List Trade) (u : String) :
    allTradeSum (ts ++ ts2) u = allTradeSum ts u + allTradeSum ts2 u := by
  simp [allTradeSum]

theorem allTradeSum_single (t : Trade) (u : String) :
    allTradeSum [t] u = tradeDelta u t := by
  simp [allTradeSum]

theorem applyTradeList_match (newts : List Trade) :
    ∀ (b : List (String × Int)) (ts : List Trade),
    (∀ u, dgetD b u 0 = allTradeSum ts u) →
    ∀ u, dgetD (applyTradeList b newts) u 0 = allTradeSum (ts ++ newts) u := by
  induction newts with
  | nil =>
    intro b ts h u
    simpa [applyTradeList] using h u
  | cons t rest ih =>
    intro b ts h u
    have h2 : ∀ u2, dgetD (applyTradeBalances b t.buyer_id t.seller_id
        t.price t.quantity) u2 0 = allTradeSum (ts ++ [t]) u2 := by
      intro u2
      rw [applyTradeBalances_getD, allTradeSum_append, h, allTradeSum_single,
        tradeDelta]
      ring
    have h3 := ih (applyTradeBalances b t.buyer_id t.seller_id t.price t.quantity)
      (ts ++ [t]) h2 u
    rw [List.append_assoc] at h3
    simpa [applyTradeList] using h3

theorem balancesMatch_of_fields {st st' : ExchangeState} (ts : List Trade)
    (hb : st'.balances = applyTradeList st.balances ts)
    (ht : st'.trades = st.trades ++ ts) (h : balancesMatch st) :
    balancesMatch st' := by
  intro u
  rw [hb, ht]
  exact applyTradeList_match ts st.balances st.trades h u

theorem balancesMatch_of_eq {st st' : ExchangeState}
    (hb : st'.balances = st.balances) (ht : st'.trades = st.trades)
    (h : balancesMatch st) : balancesMatch st' := by
  intro u
  rw [hb, ht]
  exact h u

theorem balInv_tradedState (st : ExchangeState) (book : List V2Order)
    (ts : List Trade) (nid : Nat) (h : balancesMatch st) :
    balancesMatch (tradedState st book ts nid) :=
  balancesMatch_of_fields ts rfl rfl h

/-! ## Balance invariant preservation, per operation -/

theorem balInv_commitOne (st : ExchangeState) (s : StagedOp)
    (h : balancesMatch st) : balancesMatch (commitOne st s) := by
  unfold commitOne
  split
  · split
    · split
      · exact balancesMatch_of_fields s.trades rfl rfl h
      · exact balancesMatch_of_fields s.trades rfl rfl h
    · exact balancesMatch_of_fields s.trades rfl rfl h
  · split
    · exact balancesMatch_of_fields s.trades rfl rfl h
    · split
      · exact balancesMatch_of_eq rfl rfl h
      · exact h

theorem balInv_commitStaged (l : List StagedOp) :
    ∀ (st : ExchangeState), balancesMatch st → balancesMatch (commitStaged st l) := by
  induction l with
  | nil => intro st h; exact h
  | cons s rest ih =>
    intro st h
    exact ih (commitOne st s) (balInv_commitOne st s h)

theorem balInv_submitMatchPhase (st : ExchangeState) (username sideStr : String)
    (price quantity ds de : Int) (executionType : String) (now : Int)
    (h : balancesMatch st) :
    balancesMatch (submitMatchPhase st username sideStr price quantity ds de
      executionType now).st := by
  unfold submitMatchPhase
  dsimp only
  repeat' split
  all_goals first
    | exact h
    | exact balInv_tradedState st _ _ _ h

theorem balInv_modifyMatchPhase (st : ExchangeState) (username : String)
    (order : V2Order) (order_id : Nat) (new_price new_quantity now : Int)
    (h : balancesMatch st) :
    balancesMatch (modifyMatchPhase st username order order_id
      new_price new_quantity now).st := by
  unfold modifyMatchPhase
  dsimp only
  repeat' split
  all_goals first
    | exact h
    | exact balInv_tradedState st _ _ _ h

theorem balInv_step (op : EOp) (st : ExchangeState) (h : balancesMatch st) :
    balancesMatch (applyOp op st) := by
  cases op with
  | register u p =>
    show balancesMatch (handleRegister st u p).st
    unfold handleRegister
    split
    · exact h
    split
    · exact h
    · exact balancesMatch_of_eq rfl rfl h
  | login u p tk =>
    show balancesMatch (handleLogin st u p tk).st
    unfold handleLogin
    split
    · exact h
    split
    · exact h
    · exact balancesMatch_of_eq rfl rfl h
  | changePassword u o2 n2 =>
    show balancesMatch (handleChangePassword st u o2 n2).st
    unfold handleChangePassword
    split
    · exact h
    split
    · exact h
    split
    · exact h
    · exact balancesMatch_of_eq rfl rfl h
  | dnaSubmit u p d =>
    show balancesMatch (handleDnaSubmit st u p d).st
    unfold handleDnaSubmit
    split
    · exact h
    split
    · exact h
    split
    · exact h
    · exact balancesMatch_of_eq rfl rfl h
  | dnaLogin u d tk =>
    show balancesMatch (handleDnaLogin st u d tk).st
    unfold handleDnaLogin
    split
    · exact h
    split
    · exact h
    split
    · exact h
    split
    · exact h
    split
    · exact h
    split
    · exact balancesMatch_of_eq rfl rfl h
    · exact h
  | setCollateral tk u v =>
    show balancesMatch (handleSetCollateral st tk u v).st
    unfold handleSetCollateral
    split
    · exact h
    split
    · exact h
    · exact balancesMatch_of_eq rfl rfl h
  | submitV1 tk p q ds de =>
    show balancesMatch (handleSubmitOrder st tk p q ds de).st
    unfold handleSubmitOrder
    split
    · exact h
    split
    · exact h
    split
    · exact h
    split
    · exact h
    · exact balancesMatch_of_eq rfl rfl h
  | takeOrder tk oid now =>
    show balancesMatch (handleTakeOrder st tk oid now).st
    unfold handleTakeOrder
    cases hu : dget st.tokens tk with
    | none => exact h
    | some username =>
      cases ho : st.orders.find? (fun o => o.order_id == oid && o.active) with
      | none => exact h
      | some order =>
        exact balancesMatch_of_fields
          [⟨st.nextId, username, order.seller_id, order.price, order.quantity,
            now, order.delivery_start, order.delivery_end, "v1"⟩] rfl rfl h
  | submitV2 tk sd p q ds de e now =>
    show balancesMatch (handleSubmitOrderV2 st tk sd p q ds de e now).st
    unfold handleSubmitOrderV2
    repeat' (first | split | dsimp only)
    all_goals first
      | exact h
      | exact balInv_submitMatchPhase st _ _ _ _ _ _ _ _ h
  | modifyOrder tk oid p q now =>
    show balancesMatch (handleModifyOrder st tk oid p q now).st
    unfold handleModifyOrder
    repeat' split
    all_goals first
      | exact h
      | exact balInv_modifyMatchPhase st _ _ _ _ _ _ h
  | cancelOrder tk oid =>
    show balancesMatch (handleCancelOrder st tk oid).st
    unfold handleCancelOrder
    repeat' split
    all_goals first
      | exact h
      | exact balancesMatch_of_eq rfl rfl h
  | bulk now cs =>
    show balancesMatch (handleBulkOperations st now cs).st
    unfold handleBulkOperations
    split
    · exact h
    split
    · exact h
    · exact balancesMatch_of_eq rfl rfl (balInv_commitStaged _ st h)

/-! ## Claim C1 -/

/-- Claim C1 counterexample: the claim says only v2-trade creation
changes balances and that `balance(u)` equals the signed sum over
v2-source trades.  After a legacy V1 submit and take-order (both real
operations of the program), B's balance is -500 while the v2-trade sum
for B is 0: the v1 take-order path also applies trade balances. -/
theorem c1_v1_take_order_changes_balance :
    dgetD v1TakenSt.balances "B" 0 = -500
    ∧ v2TradeSum v1TakenSt.trades "B" = 0
    ∧ dgetD v1TakenSt.balances "B" 0 ≠ v2TradeSum v1TakenSt.trades "B" := by
  refine ⟨?_, ?_, ?_⟩ <;> decide

/-- Claim C1, amended: the stored balance of every user equals the
signed sum of price times quantity over ALL trades in the log (v1 and
v2 source alike): sellers credited, buyers debited.  This holds after
any sequence of operations from the empty state, and is preserved by
every single operation; balances change exactly when a trade (v2
matching, bulk commit, or v1 take-order) is appended. -/
theorem c1_balances_equal_signed_trade_sum :
    (∀ ops : List EOp,
      balancesMatch (ops.foldl (fun st op => applyOp op st) emptyState))
    ∧ (∀ (op : EOp) (st : ExchangeState),
        balancesMatch st → balancesMatch (applyOp op st)) := by
  constructor
  · have g : ∀ (l : List EOp) (st : ExchangeState), balancesMatch st →
        balancesMatch (l.foldl (fun st op => applyOp op st) st) := by
      intro l
      induction l with
      | nil => intro st h; exact h
      | cons o rest ih => intro st h; exact ih (applyOp o st) (balInv_step o st h)
    intro ops
    exact g ops emptyState (fun u => rfl)
  · exact balInv_step

/-- Claim C1 witness: the preservation part applied at a concrete
state (after a V1 submit) and a concrete take-order operation. -/
theorem c1_balances_equal_signed_trade_sum_witness :
    balancesMatch (applyOp (.takeOrder "tB" 0 500) v1SubmittedSt) :=
  c1_balances_equal_signed_trade_sum.2 (.takeOrder "tB" 0 500) v1SubmittedSt
    (fun u => rfl)

/-! ## Claim C9 -/

/-- Claim C9: a successful password change (correct old password, all
fields nonempty, token keys unique as in a Python dict) returns 204,
removes every token bound to the user (so a subsequent request — here a
cancel — authenticated with such a token gets 401), and leaves tokens
of every other user bound unchanged. -/
theorem c9_password_change_invalidates_tokens
    (st : ExchangeState) (username old_password new_password : String)
    (hu : username ≠ "") (ho : old_password ≠ "") (hn : new_password ≠ "")
    (hpw : dget st.users username = some old_password)
    (hnd : (st.tokens.map Prod.fst).Nodup) :
    (handleChangePassword st username old_password new_password).http = 204
    ∧ (∀ t, dget st.tokens t = some username →
        dget (handleChangePassword st username old_password new_password).st.tokens t
          = none)
    ∧ (∀ t u2, u2 ≠ username → dget st.tokens t = some u2 →
        dget (handleChangePassword st username old_password new_password).st.tokens t
          = some u2)
    ∧ (∀ t, dget st.tokens t = some username →
        (handleCancelOrder
          (handleChangePassword st username old_password new_password).st t 0).http
          = 401) := by
  have hred : handleChangePassword st username old_password new_password
      = ⟨204, { st with users := dput st.users username new_password,
                        tokens := ((st.tokens.filter (fun p => p.2 == username)).map
                          (fun p => p.1)).foldl (fun d t => derase d t) st.tokens }⟩ := by
    unfold handleChangePassword
    rw [if_neg (by simp [hu, ho, hn]), hpw]
    dsimp only
    rw [if_neg (fun hh => hh rfl)]
  have hmem1 : ∀ t, dget st.tokens t = some username →
      t ∈ (st.tokens.filter (fun p => p.2 == username)).map (fun p => p.1) := by
    intro t hget
    exact List.mem_map.mpr ⟨(t, username),
      List.mem_filter.mpr ⟨dget_mem hget, by simp⟩, rfl⟩
  have hmem2 : ∀ t, t ∈ (st.tokens.filter (fun p => p.2 == username)).map
      (fun p => p.1) → dget st.tokens t = some username := by
    intro t ht
    obtain ⟨p, hp, hpt⟩ := List.mem_map.mp ht
    obtain ⟨hpmem, hpv⟩ := List.mem_filter.mp hp
    have hv : p.2 = username := by simpa using hpv
    have hpe : p = (t, username) := Prod.ext_iff.mpr ⟨hpt, hv⟩
    rw [hpe] at hpmem
    exact dget_of_mem_nodup hnd hpmem
  have htok : ∀ t,
      dget (handleChangePassword st username old_password new_password).st.tokens t
        = if t ∈ (st.tokens.filter (fun p => p.2 == username)).map (fun p => p.1)
          then none else dget st.tokens t := by
    intro t
    rw [hred]
    exact dget_foldl_derase _ _ _
  have hgone : ∀ t, dget st.tokens t = some username →
      dget (handleChangePassword st username old_password new_password).st.tokens t
        = none := by
    intro t hget
    rw [htok t, if_pos (hmem1 t hget)]
  refine ⟨by rw [hred], hgone, ?_, ?_⟩
  · intro t u2 hne hget
    rw [htok t, if_neg]
    · exact hget
    · intro hin
      have h2 := hmem2 t hin
      rw [hget] at h2
      exact hne (Option.some.inj h2)
  · intro t hget
    have h0 := hgone t hget
    unfold handleCancelOrder
    rw [h0]

/-- Claim C9 witness: the theorem applied at `baseSt` with user A. -/
theorem c9_password_change_invalidates_tokens_witness :
    (handleChangePassword baseSt "A" "pa" "new").http = 204
    ∧ dget (handleChangePassword baseSt "A" "pa" "new").st.tokens "tA" = none
    ∧ dget (handleChangePassword baseSt "A" "pa" "new").st.tokens "tB" = some "B"
    ∧ (handleCancelOrder (handleChangePassword baseSt "A" "pa" "new").st "tA" 0).http
        = 401 := by
  have h := c9_password_change_invalidates_tokens baseSt "A" "pa" "new"
    (by decide) (by decide) (by decide) (by decide) (by decide)
  exact ⟨h.1, h.2.1 "tA" (by decide), h.2.2.1 "tB" "B" (by decide) (by decide),
    h.2.2.2 "tA" (by decide)⟩

/-! ## Claim C10 -/

/-- Claim C10: a successful login (and a successful DNA-login) only adds
the one freshly minted token binding: the fresh token maps to the
logging-in user, every other token's binding is untouched, and users,
V1 orders, V2 orders, trades, balances, collateral and DNA samples are
unchanged. -/
theorem c10_login_frame_effect :
    (∀ (st : ExchangeState) (username password freshToken : String),
      username ≠ "" → password ≠ "" →
      dget st.users username = some password →
      dget st.tokens freshToken = none →
      (handleLogin st username password freshToken).http = 200
      ∧ dget (handleLogin st username password freshToken).st.tokens freshToken
          = some username
      ∧ (∀ t, t ≠ freshToken →
          dget (handleLogin st username password freshToken).st.tokens t
            = dget st.tokens t)
      ∧ (handleLogin st username password freshToken).st.users = st.users
      ∧ (handleLogin st username password freshToken).st.orders = st.orders
      ∧ (handleLogin st username password freshToken).st.v2_orders = st.v2_orders
      ∧ (handleLogin st username password freshToken).st.trades = st.trades
      ∧ (handleLogin st username password freshToken).st.balances = st.balances
      ∧ (handleLogin st username password freshToken).st.collateral = st.collateral
      ∧ (handleLogin st username password freshToken).st.dna_samples = st.dna_samples)
    ∧ (∀ (st : ExchangeState) (username dna freshToken : String),
      (handleDnaLogin st username dna freshToken).http = 200 →
      dget st.tokens freshToken = none →
      dget (handleDnaLogin st username dna freshToken).st.tokens freshToken
          = some username
      ∧ (∀ t, t ≠ freshToken →
          dget (handleDnaLogin st username dna freshToken).st.tokens t
            = dget st.tokens t)
      ∧ (handleDnaLogin st username dna freshToken).st.users = st.users
      ∧ (handleDnaLogin st username dna freshToken).st.orders = st.orders
      ∧ (handleDnaLogin st username dna freshToken).st.v2_orders = st.v2_orders
      ∧ (handleDnaLogin st username dna freshToken).st.trades = st.trades
      ∧ (handleDnaLogin st username dna freshToken).st.balances = st.balances
      ∧ (handleDnaLogin st username dna freshToken).st.collateral = st.collateral
      ∧ (handleDnaLogin st username dna freshToken).st.dna_samples
          = st.dna_samples) := by
  constructor
  · intro st username password freshToken hu hp hpw hfresh
    have hred : handleLogin st username password freshToken
        = ⟨200, { st with tokens := dput st.tokens freshToken username }⟩ := by
      unfold handleLogin
      rw [if_neg (by simp [hu, hp]), if_neg (by simp [hpw])]
    rw [hred]
    refine ⟨rfl, ?_, ?_, rfl, rfl, rfl, rfl, rfl, rfl, rfl⟩
    · rw [dget_dput]
      simp
    · intro t ht
      show dget (dput st.tokens freshToken username) t = dget st.tokens t
      rw [dget_dput, if_neg ht]
  · intro st username dna freshToken h200 hfresh
    revert h200
    unfold handleDnaLogin
    repeat' split
    all_goals intro h200
    all_goals try simp at h200
    refine ⟨?_, ?_, rfl, rfl, rfl, rfl, rfl, rfl, rfl⟩
    · rw [dget_dput]
      simp
    · intro t ht
      show dget (dput st.tokens freshToken username) t = dget st.tokens t
      rw [dget_dput, if_neg ht]

/-- Claim C10 witness: a concrete login and a concrete DNA-login. -/
theorem c10_login_frame_effect_witness :
    (handleLogin baseSt "A" "pa" "tok9").http = 200
    ∧ dget (handleLogin baseSt "A" "pa" "tok9").st.tokens "tok9" = some "A"
    ∧ dget (handleDnaLogin dnaSt "A" "ACG" "tok8").st.tokens "tok8" = some "A" := by
  have h1 := c10_login_frame_effect.1 baseSt "A" "pa" "tok9"
    (by decide) (by decide) (by decide) (by decide)
  have h2 := c10_login_frame_effect.2 dnaSt "A" "ACG" "tok8"
    (by decide) (by decide)
  exact ⟨h1.1, h1.2.1, h2.1⟩

/-! ## Claim C5 -/

/-- Claim C5 counterexample: with a contract 30 days out, `now = 0` is
before the trading window opens (the window check itself would say 425),
yet a modify succeeds with 200 and a cancel succeeds with 204: neither
`handle_modify_order` nor `handle_cancel_order` checks the window. -/
theorem c5_counterexample_window_not_checked_on_modify_cancel :
    tradingWindowError 0 lateDs = some 425
    ∧ (handleModifyOrder lateSt "tA" 1 101 5 0).http = 200
    ∧ (handleCancelOrder lateSt "tA" 1).http = 204 := by
  refine ⟨?_, ?_, ?_⟩ <;> decide

/-- Claim C5, amended: the trading window (425 before
`delivery_start - 15 days`, 451 after `delivery_start - 60 s`) is
enforced on order creation (`POST /v2/orders`; the bulk path invokes
the same check per contract), but PUT and DELETE `/v2/orders/{id}`
perform no trading-window check at all: their responses are never 425
or 451, matching the endpoint list of the spec's section 6. -/
theorem c5_trading_window_scope :
    (∀ (st : ExchangeState) (token : String) (oid : Nat) (p q now : Int),
      (handleModifyOrder st token oid p q now).http ≠ 425
      ∧ (handleModifyOrder st token oid p q now).http ≠ 451)
    ∧ (∀ (st : ExchangeState) (token : String) (oid : Nat),
      (handleCancelOrder st token oid).http ≠ 425
      ∧ (handleCancelOrder st token oid).http ≠ 451)
    ∧ (∀ (st : ExchangeState) (token sideStr : String)
        (price quantity ds de now : Int) (e username : String),
      dget st.tokens token = some username →
      (e = "GTC" ∨ e = "IOC" ∨ e = "FOK") →
      (sideStr = "buy" ∨ sideStr = "sell") →
      0 < quantity →
      ds % 3600000 = 0 → de % 3600000 = 0 → ds < de → de - ds = 3600000 →
      (now < ds - 1296000000 →
        (handleSubmitOrderV2 st token sideStr price quantity ds de e now).http = 425
        ∧ (handleSubmitOrderV2 st token sideStr price quantity ds de e now).st = st)
      ∧ (ds - 60000 < now →
        (handleSubmitOrderV2 st token sideStr price quantity ds de e now).http = 451
        ∧ (handleSubmitOrderV2 st token sideStr price quantity ds de e now).st = st)) := by
  refine ⟨?_, ?_, ?_⟩
  · intro st token oid p q now
    constructor <;>
      (unfold handleModifyOrder modifyMatchPhase
       repeat' (first | split | dsimp only)
       all_goals simp)
  · intro st token oid
    constructor <;>
      (unfold handleCancelOrder
       repeat' (first | split | dsimp only)
       all_goals simp)
  · intro st token sideStr price quantity ds de now e username
      hTok hE hS hQ hA1 hA2 hLt hW
    have hexecOk : ¬ ((if e = "" then "GTC" else e) ≠ "GTC"
        ∧ (if e = "" then "GTC" else e) ≠ "IOC"
        ∧ (if e = "" then "GTC" else e) ≠ "FOK") := by
      rcases hE with rfl | rfl | rfl <;> simp
    have hsideOk : ¬ (sideStr ≠ "buy" ∧ sideStr ≠ "sell") := by
      rcases hS with rfl | rfl <;> simp
    have hqOk : ¬ quantity ≤ 0 := by omega
    have halignOk : ¬ (ds % 3600000 ≠ 0 ∨ de % 3600000 ≠ 0) := by simp [hA1, hA2]
    have hdeOk : ¬ de ≤ ds := by omega
    have hwOk : ¬ de - ds ≠ 3600000 := by simp [hW]
    constructor
    · intro hnow
      have hwin : tradingWindowError now ds = some 425 := by
        unfold tradingWindowError
        rw [if_pos hnow]
      unfold handleSubmitOrderV2
      rw [hTok]
      dsimp only
      rw [if_neg hexecOk, if_neg hsideOk, if_neg hqOk, if_neg halignOk,
        if_neg hdeOk, if_neg hwOk, hwin]
      exact ⟨rfl, rfl⟩
    · intro hnow
      have hwin : tradingWindowError now ds = some 451 := by
        unfold tradingWindowError
        rw [if_neg (by omega), if_pos hnow]
      unfold handleSubmitOrderV2
      rw [hTok]
      dsimp only
      rw [if_neg hexecOk, if_neg hsideOk, if_neg hqOk, if_neg halignOk,
        if_neg hdeOk, if_neg hwOk, hwin]
      exact ⟨rfl, rfl⟩

/-- Claim C5 witness: the amended theorem at concrete inputs — modify
and cancel responses are not 425 even far outside the window, while
submissions before and after the window get 425 and 451. -/
theorem c5_trading_window_scope_witness :
    (handleModifyOrder lateSt "tA" 1 101 5 0).http ≠ 425
    ∧ (handleCancelOrder lateSt "tA" 1).http ≠ 425
    ∧ (handleSubmitOrderV2 lateSt "tA" "buy" 100 1 lateDs lateDe "GTC" 0).http = 425
    ∧ (handleSubmitOrderV2 baseSt "tA" "buy" 100 1 ds0 de0 "GTC" (ds0 - 1)).http
        = 451 := by
  have h1 := (c5_trading_window_scope.1 lateSt "tA" 1 101 5 0).1
  have h2 := (c5_trading_window_scope.2.1 lateSt "tA" 1).1
  have h3 := ((c5_trading_window_scope.2.2 lateSt "tA" "buy" 100 1 lateDs lateDe 0
    "GTC" "A" (by decide) (Or.inl rfl) (Or.inl rfl) (by decide) (by decide)
    (by decide) (by decide) (by decide)).1 (by decide)).1
  have h4 := ((c5_trading_window_scope.2.2 baseSt "tA" "buy" 100 1 ds0 de0 (ds0 - 1)
    "GTC" "A" (by decide) (Or.inl rfl) (Or.inl rfl) (by decide) (by decide)
    (by decide) (by decide) (by decide)).2 (by decide)).1
  exact ⟨h1, h2, h3, h4⟩

/-! ## Claim C4 -/

/-- Claim C4 counterexample: in `collSt`, user A's buy of 2 at 600 both
crosses A's own resting sell (self-match) and breaches A's collateral
limit; the claim says the response must be 412 (self-match checked
before collateral), but `handle_submit_order_v2` answers 402: the
create path evaluates collateral before self-match prevention. -/
theorem c4_counterexample_collateral_before_self_match :
    ((submitCandidates collSt "buy" 600 ds0 de0).any (fun c => c.owner == "A")) = true
    ∧ checkCollateralCreate collSt "A" "buy" 600 2 = false
    ∧ (handleSubmitOrderV2 collSt "tA" "buy" 600 2 ds0 de0 "GTC" 1000).http = 402
    ∧ (handleSubmitOrderV2 collSt "tA" "buy" 600 2 ds0 de0 "GTC" 1000).http ≠ 412 := by
  refine ⟨?_, ?_, ?_, ?_⟩ <;> decide

/-- Claim C4, amended.  On the singleton creation path
(`handle_submit_order_v2`) the admission gates run in the order shape,
trading window, collateral, self-match: once shape and window pass, a
collateral breach answers 402 regardless of any self-match, and only
when collateral passes does a crossable own order produce 412; both
failures leave the state unchanged.  On the bulk path the per-contract
trading-window check runs before the per-operation shape checks: a
shape-valid contract outside the window answers 425/451 whatever its
operations contain, and inside `_bulk_sim_create` (window already
passed) shape precedes collateral, which precedes self-match, so the
combined collateral + self-match violation again answers 402. -/
theorem c4_create_gate_order :
    (∀ (st : ExchangeState) (token sideStr : String)
        (price quantity ds de now : Int) (e username : String),
      dget st.tokens token = some username →
      (e = "GTC" ∨ e = "IOC" ∨ e = "FOK") →
      (sideStr = "buy" ∨ sideStr = "sell") →
      0 < quantity →
      ds % 3600000 = 0 → de % 3600000 = 0 → ds < de → de - ds = 3600000 →
      ds - 1296000000 ≤ now → now ≤ ds - 60000 →
      (checkCollateralCreate st username sideStr price quantity = false →
        (handleSubmitOrderV2 st token sideStr price quantity ds de e now).http = 402
        ∧ (handleSubmitOrderV2 st token sideStr price quantity ds de e now).st = st)
      ∧ (checkCollateralCreate st username sideStr price quantity = true →
        ((submitCandidates st sideStr price ds de).any
          (fun c => c.owner == username)) = true →
        (handleSubmitOrderV2 st token sideStr price quantity ds de e now).http = 412
        ∧ (handleSubmitOrderV2 st token sideStr price quantity ds de e now).st = st))
    ∧ (∀ (st : ExchangeState) (c : BulkContract) (rest : List BulkContract)
        (now : Int) (s : Nat),
      c.operations ≠ [] →
      c.delivery_start % 3600000 = 0 → c.delivery_end % 3600000 = 0 →
      c.delivery_start < c.delivery_end →
      c.delivery_end - c.delivery_start = 3600000 →
      tradingWindowError now c.delivery_start = some s →
      (handleBulkOperations st now (c :: rest)).http = s
      ∧ (handleBulkOperations st now (c :: rest)).st = st)
    ∧ (∀ (st : ExchangeState) (now : Int) (username sideStr : String)
        (price quantity : Int) (e : String) (ds de : Int)
        (staged : List StagedOp) (nid : Nat),
      (sideStr = "buy" ∨ sideStr = "sell") →
      0 < quantity →
      (e = "GTC" ∨ e = "IOC" ∨ e = "FOK") →
      (checkCollateralInSimState st username sideStr price quantity staged = false →
        bulkSimCreate st now username sideStr price quantity e ds de staged nid
          = .error 402)
      ∧ (checkCollateralInSimState st username sideStr price quantity staged = true →
        ((simCandidates (buildSimOrderBook st ds de staged none) sideStr price).any
          (fun c2 => c2.owner == username)) = true →
        bulkSimCreate st now username sideStr price quantity e ds de staged nid
          = .error 412)) := by
  refine ⟨?_, ?_, ?_⟩
  · intro st token sideStr price quantity ds de now e username
      hTok hE hS hQ hA1 hA2 hLt hW hWin1 hWin2
    have hexecOk : ¬ ((if e = "" then "GTC" else e) ≠ "GTC"
        ∧ (if e = "" then "GTC" else e) ≠ "IOC"
        ∧ (if e = "" then "GTC" else e) ≠ "FOK") := by
      rcases hE with rfl | rfl | rfl <;> simp
    have hsideOk : ¬ (sideStr ≠ "buy" ∧ sideStr ≠ "sell") := by
      rcases hS with rfl | rfl <;> simp
    have hqOk : ¬ quantity ≤ 0 := by omega
    have halignOk : ¬ (ds % 3600000 ≠ 0 ∨ de % 3600000 ≠ 0) := by simp [hA1, hA2]
    have hdeOk : ¬ de ≤ ds := by omega
    have hwOk : ¬ de - ds ≠ 3600000 := by simp [hW]
    have hwin : tradingWindowError now ds = none := by
      unfold tradingWindowError
      rw [if_neg (by omega), if_neg (by omega)]
    constructor
    · intro hColl
      unfold handleSubmitOrderV2
      rw [hTok]
      dsimp only
      rw [if_neg hexecOk, if_neg hsideOk, if_neg hqOk, if_neg halignOk,
        if_neg hdeOk, if_neg hwOk, hwin]
      dsimp only
      rw [if_pos (by simp [hColl])]
      exact ⟨rfl, rfl⟩
    · intro hColl hSelf
      unfold handleSubmitOrderV2
      rw [hTok]
      dsimp only
      rw [if_neg hexecOk, if_neg hsideOk, if_neg hqOk, if_neg halignOk,
        if_neg hdeOk, if_neg hwOk, hwin]
      dsimp only
      rw [if_neg (by simp [hColl])]
      unfold submitMatchPhase
      dsimp only
      rw [if_pos hSelf]
      exact ⟨rfl, rfl⟩
  · intro st c rest now s hops hA1 hA2 hLt hW hwin
    have hsim : simulateContracts st now (c :: rest) [] st.nextId = .error s := by
      rw [simulateContracts, if_neg hops, if_neg (by simp [hA1, hA2]),
        if_neg (by rintro (h | h) <;> omega), hwin]
    unfold handleBulkOperations
    rw [if_neg (by simp), hsim]
    exact ⟨rfl, rfl⟩
  · intro st now username sideStr price quantity e ds de staged nid hS hQ hE
    have hsideOk : ¬ (sideStr ≠ "buy" ∧ sideStr ≠ "sell") := by
      rcases hS with rfl | rfl <;> simp
    have hqOk : ¬ quantity ≤ 0 := by omega
    have hexecOk : ¬ ((if e = "" then "GTC" else e) ≠ "GTC"
        ∧ (if e = "" then "GTC" else e) ≠ "IOC"
        ∧ (if e = "" then "GTC" else e) ≠ "FOK") := by
      rcases hE with rfl | rfl | rfl <;> simp
    constructor
    · intro hColl
      unfold bulkSimCreate
      dsimp only
      rw [if_neg hsideOk, if_neg hqOk, if_neg hexecOk, if_pos (by simp [hColl])]
    · intro hColl hSelf
      unfold bulkSimCreate
      dsimp only
      rw [if_neg hsideOk, if_neg hqOk, if_neg hexecOk, if_neg (by simp [hColl])]
      rw [if_pos hSelf]

/-- Claim C4 witness: with both violations the singleton submit answers
402 and with only self-match it answers 412; a shape-valid but
out-of-window bulk contract answers 425 even though its create has an
invalid side; and `_bulk_sim_create` mirrors the 402 / 412 order. -/
theorem c4_create_gate_order_witness :
    (handleSubmitOrderV2 collSt "tA" "buy" 600 2 ds0 de0 "GTC" 1000).http = 402
    ∧ (handleSubmitOrderV2 sellBookSt "tA" "buy" 600 2 ds0 de0 "GTC" 1000).http = 412
    ∧ (handleBulkOperations baseSt 0
        [⟨lateDs, lateDe, [.create "tA" "bogus" 1 1 "GTC"]⟩]).http = 425
    ∧ bulkSimCreate collSt 1000 "A" "buy" 600 2 "GTC" ds0 de0 [] 2 = .error 402
    ∧ bulkSimCreate sellBookSt 1000 "A" "buy" 600 2 "GTC" ds0 de0 [] 2
        = .error 412 := by
  have h1 := (c4_create_gate_order.1 collSt "tA" "buy" 600 2 ds0 de0 1000 "GTC" "A"
    (by decide) (Or.inl rfl) (Or.inl rfl) (by decide) (by decide) (by decide)
    (by decide) (by decide) (by decide) (by decide)).1 (by decide)
  have h2 := (c4_create_gate_order.1 sellBookSt "tA" "buy" 600 2 ds0 de0 1000 "GTC"
    "A" (by decide) (Or.inl rfl) (Or.inl rfl) (by decide) (by decide) (by decide)
    (by decide) (by decide) (by decide) (by decide)).2 (by decide) (by decide)
  have h3 := c4_create_gate_order.2.1 baseSt
    ⟨lateDs, lateDe, [.create "tA" "bogus" 1 1 "GTC"]⟩ [] 0 425
    (by decide) (by decide) (by decide) (by decide) (by decide) (by decide)
  have h4 := (c4_create_gate_order.2.2 collSt 1000 "A" "buy" 600 2 "GTC" ds0 de0
    [] 2 (Or.inl rfl) (by decide) (Or.inl rfl)).1 (by decide)
  have h5 := (c4_create_gate_order.2.2 sellBookSt 1000 "A" "buy" 600 2 "GTC" ds0 de0
    [] 2 (Or.inl rfl) (by decide) (Or.inl rfl)).2 (by decide) (by decide)
  exact ⟨h1.1, h2.1, h3.1, h4, h5⟩

/-! ## Claim C3 -/

/-- Claim C3: evaluation at the failing input of the code bug.  A
successful DELETE of the ACTIVE order (5 units, owner A) answers 204
and sets status CANCELLED, but leaves `quantity = 5`: the singleton
cancel handler never zeroes the quantity, violating the claimed (and
spec-stated) terminal invariant that the bulk cancel path does enforce. -/
theorem c3_cancel_leaves_positive_quantity :
    (handleCancelOrder sellBookSt "tA" 1).http = 204
    ∧ (handleCancelOrder sellBookSt "tA" 1).st.v2_orders.map
        (fun o => (o.status, o.quantity)) = [("CANCELLED", 5)] := by
  refine ⟨?_, ?_⟩ <;> decide

/-! ## Claim C2 -/

/-- Claim C2: evaluation at the failing input of the code bug.  A bulk
batch whose one create fully matches the real resting ACTIVE sell
(5 @ 100, owner A) commits the trade and the balance transfer, but the
resting order is left ACTIVE with quantity 5 — the commit phase never
decrements matched resting orders, marks them FILLED, or removes them,
contrary to the claimed replay of the singleton matching path. -/
theorem c2_bulk_commit_skips_resting_writeback :
    (handleBulkOperations sellBookSt 1000
      [⟨ds0, de0, [.create "tB" "buy" 100 5 "GTC"]⟩]).http = 200
    ∧ (handleBulkOperations sellBookSt 1000
        [⟨ds0, de0, [.create "tB" "buy" 100 5 "GTC"]⟩]).st.trades.map
        (fun t => (t.buyer_id, t.seller_id, t.price, t.quantity))
        = [("B", "A", 100, 5)]
    ∧ (handleBulkOperations sellBookSt 1000
        [⟨ds0, de0, [.create "tB" "buy" 100 5 "GTC"]⟩]).st.v2_orders
        = [⟨1, "sell", "A", 100, 5, ds0, de0, "ACTIVE", 0, 5⟩] := by
  refine ⟨?_, ?_, ?_⟩ <;> decide

/-! ## Claim C8 -/

/-- Claim C8: whenever a bulk batch fails (any non-200 outcome — shape,
window, auth, or any single operation's simulation failure), the state
is returned untouched; and the concrete S5 batch
[create valid, cancel nonexistent] answers 404 with the state (book,
ledger, trade log) unchanged. -/
theorem c8_bulk_failure_is_atomic :
    (∀ (st : ExchangeState) (now : Int) (contracts : List BulkContract),
      (handleBulkOperations st now contracts).http ≠ 200 →
      (handleBulkOperations st now contracts).st = st)
    ∧ ((handleBulkOperations sellBookSt 1000
        [⟨ds0, de0, [.create "tB" "buy" 1 1 "GTC", .cancel "tB" 999]⟩]).http = 404
      ∧ (handleBulkOperations sellBookSt 1000
        [⟨ds0, de0, [.create "tB" "buy" 1 1 "GTC", .cancel "tB" 999]⟩]).st
          = sellBookSt) := by
  constructor
  · intro st now contracts h
    unfold handleBulkOperations at h ⊢
    by_cases hc : contracts = []
    · rw [if_pos hc]
    · rw [if_neg hc] at h ⊢
      cases hsim : simulateContracts st now contracts [] st.nextId with
      | error s => rfl
      | ok pr =>
        obtain ⟨staged, nid⟩ := pr
        rw [hsim] at h
        exact absurd rfl h
  · refine ⟨?_, ?_⟩ <;> decide

/-- Claim C8 witness: the atomicity part applied at a concrete failing
batch (cancel of a nonexistent order id). -/
theorem c8_bulk_failure_is_atomic_witness :
    (handleBulkOperations sellBookSt 1000
      [⟨ds0, de0, [.cancel "tB" 999]⟩]).st = sellBookSt :=
  c8_bulk_failure_is_atomic.1 sellBookSt 1000
    [⟨ds0, de0, [.cancel "tB" 999]⟩] (by decide)

/-! ## Sorting and matching-loop lemmas -/

theorem lexLe_total (a b : Int × Int) : lexLe a b = true ∨ lexLe b a = true := by
  simp only [lexLe, Bool.or_eq_true, Bool.and_eq_true, decide_eq_true_iff, beq_iff_eq]
  omega

theorem lexLe_trans (a b c : Int × Int) (h1 : lexLe a b = true)
    (h2 : lexLe b c = true) : lexLe a c = true := by
  simp only [lexLe, Bool.or_eq_true, Bool.and_eq_true, decide_eq_true_iff,
    beq_iff_eq] at h1 h2 ⊢
  omega

theorem mem_insertByKey {α : Type} (key : α → Int × Int) (x : α) (l : List α)
    (y : α) : y ∈ insertByKey key x l ↔ y = x ∨ y ∈ l := by
  induction l with
  | nil => simp [insertByKey]
  | cons z zs ih =>
    by_cases h : lexLe (key x) (key z) = true
    · simp [insertByKey, h]
    · simp only [insertByKey, if_neg h, List.mem_cons, ih]
      tauto

theorem pairwise_insertByKey {α : Type} (key : α → Int × Int) (x : α)
    (l : List α) (hp : l.Pairwise (fun a b => lexLe (key a) (key b) = true)) :
    (insertByKey key x l).Pairwise (fun a b => lexLe (key a) (key b) = true) := by
  induction l with
  | nil => simp [insertByKey]
  | cons z zs ih =>
    obtain ⟨hz, hzs⟩ := List.pairwise_cons.mp hp
    by_cases h : lexLe (key x) (key z) = true
    · rw [insertByKey, if_pos h]
      refine List.Pairwise.cons ?_ hp
      intro y hy
      rcases List.mem_cons.mp hy with rfl | hy2
      · exact h
      · exact lexLe_trans _ _ _ h (hz y hy2)
    · rw [insertByKey, if_neg h]
      have hzx : lexLe (key z) (key x) = true := (lexLe_total _ _).resolve_left h
      refine List.Pairwise.cons ?_ (ih hzs)
      intro y hy
      rcases (mem_insertByKey key x zs y).mp hy with rfl | hy2
      · exact hzx
      · exact hz y hy2

theorem pairwise_sortByKey {α : Type} (key : α → Int × Int) (l : List α) :
    (sortByKey key l).Pairwise (fun a b => lexLe (key a) (key b) = true) := by
  induction l with
  | nil => simp [sortByKey]
  | cons x xs ih => exact pairwise_insertByKey key x (sortByKey key xs) ih

theorem mem_sortByKey {α : Type} (key : α → Int × Int) (l : List α) (y : α) :
    y ∈ sortByKey key l ↔ y ∈ l := by
  induction l with
  | nil => simp [sortByKey]
  | cons x xs ih =>
    simp [sortByKey, mem_insertByKey, ih]

/-- Every candidate produced by `submitCandidates` is an ACTIVE order
with positive remaining quantity (it is filtered that way). -/
theorem submitCandidates_active (st : ExchangeState) (sideStr : String)
    (price ds de : Int) :
    ∀ o ∈ submitCandidates st sideStr price ds de,
      o.status = "ACTIVE" ∧ 0 < o.quantity := by
  intro o ho
  unfold submitCandidates at ho
  by_cases hb : sideStr = "buy"
  · rw [if_pos hb, mem_sortByKey] at ho
    have := List.mem_filter.mp ho
    simp only [Bool.and_eq_true, beq_iff_eq, decide_eq_true_iff] at this
    exact ⟨this.2.1.1.1.1.1, this.2.1.2⟩
  · rw [if_neg hb, mem_sortByKey] at ho
    have := List.mem_filter.mp ho
    simp only [Bool.and_eq_true, beq_iff_eq, decide_eq_true_iff] at this
    exact ⟨this.2.1.1.1.1.1, this.2.1.2⟩

theorem sumQty_cons (o : V2Order) (rest : List V2Order) :
    sumQty (o :: rest) = o.quantity + sumQty rest := by
  simp [sumQty]

theorem sumQty_nonneg (l : List V2Order) (h : ∀ o ∈ l, 0 < o.quantity) :
    0 ≤ sumQty l := by
  induction l with
  | nil => simp [sumQty]
  | cons o rest ih =>
    have h1 := h o (List.mem_cons_self o rest)
    have h2 := ih (fun o2 ho2 => h o2 (List.mem_cons_of_mem _ ho2))
    rw [sumQty_cons]
    omega

/-- The FOK preflight's early-break accumulation compares with the
incoming quantity exactly as the plain sum does. -/
theorem fokTotalPossible_lt_iff (q : Int) (l : List V2Order)
    (h : ∀ o ∈ l, o.status = "ACTIVE" ∧ 0 < o.quantity) :
    ∀ acc, (fokTotalPossible q acc l < q ↔ acc + sumQty l < q) := by
  induction l with
  | nil =>
    intro acc
    simp [fokTotalPossible, sumQty]
  | cons o rest ih =>
    intro acc
    have ho := h o (List.mem_cons_self o rest)
    have hrest : ∀ o2 ∈ rest, o2.status = "ACTIVE" ∧ 0 < o2.quantity :=
      fun o2 ho2 => h o2 (List.mem_cons_of_mem _ ho2)
    have hskip : ¬ (o.status ≠ "ACTIVE" ∨ o.quantity ≤ 0) := by
      rintro (hc | hc)
      · exact hc ho.1
      · omega
    have hnn : 0 ≤ sumQty rest := sumQty_nonneg rest (fun o2 ho2 => (hrest o2 ho2).2)
    rw [fokTotalPossible, if_neg hskip, sumQty_cons]
    by_cases hge : acc + o.quantity ≥ q
    · rw [if_pos hge]
      constructor
      · intro hlt; omega
      · intro hlt; omega
    · rw [if_neg hge, ih hrest (acc + o.quantity)]
      constructor
      · intro hlt; omega
      · intro hlt; omega

theorem matchLoopV2_remaining_add (username sideStr : String) (ds de now : Int) :
    ∀ (l : List V2Order) (r : Int) (nid : Nat),
      (matchLoopV2 username sideStr ds de now r nid l).remaining
        + tradeQtySum (matchLoopV2 username sideStr ds de now r nid l).trades = r := by
  intro l
  induction l with
  | nil =>
    intro r nid
    simp [matchLoopV2, tradeQtySum]
  | cons o rest ih =>
    intro r nid
    by_cases h1 : r ≤ 0
    · simp [matchLoopV2, if_pos h1, tradeQtySum]
    · rw [matchLoopV2, if_neg h1]
      by_cases h2 : o.status ≠ "ACTIVE" ∨ o.quantity ≤ 0
      · rw [if_pos h2]
        exact ih r nid
      · rw [if_neg h2]
        by_cases h3 : min r o.quantity ≤ 0
        · rw [if_pos h3]
          exact ih r nid
        · rw [if_neg h3]
          have h4 := ih (r - min r o.quantity) (nid + 1)
          simp only [tradeQtySum, List.map_cons, List.sum_cons] at h4 ⊢
          omega

theorem matchLoopV2_fills (username sideStr : String) (ds de now : Int) :
    ∀ (l : List V2Order) (r : Int) (nid : Nat),
      (∀ o ∈ l, o.status = "ACTIVE" ∧ 0 < o.quantity) →
      0 ≤ r → r ≤ sumQty l →
      (matchLoopV2 username sideStr ds de now r nid l).remaining = 0 := by
  intro l
  induction l with
  | nil =>
    intro r nid _ h0 hs
    have : r = 0 := by
      simp only [sumQty, List.map_nil, List.sum_nil] at hs
      omega
    simp [matchLoopV2, this]
  | cons o rest ih =>
    intro r nid h h0 hs
    have ho := h o (List.mem_cons_self o rest)
    have hrest : ∀ o2 ∈ rest, o2.status = "ACTIVE" ∧ 0 < o2.quantity :=
      fun o2 ho2 => h o2 (List.mem_cons_of_mem _ ho2)
    have hnn : 0 ≤ sumQty rest := sumQty_nonneg rest (fun o2 ho2 => (hrest o2 ho2).2)
    by_cases h1 : r ≤ 0
    · rw [matchLoopV2, if_pos h1]
      show r = 0
      omega
    · have hskip : ¬ (o.status ≠ "ACTIVE" ∨ o.quantity ≤ 0) := by
        rintro (hc | hc)
        · exact hc ho.1
        · omega
      have htq : ¬ (min r o.quantity ≤ 0) := by
        have := ho.2
        omega
      rw [matchLoopV2, if_neg h1, if_neg hskip, if_neg htq]
      rw [sumQty_cons] at hs
      exact ih (r - min r o.quantity) (nid + 1) hrest (by omega) (by omega)

/-- The embedded matching loop refines the spec's matching loop: the
emitted (price, quantity) sequence equals the spec-side computation on
the same priority-ordered crossable book. -/
theorem matchLoopV2_spec (username sideStr : String) (ds de now : Int) :
    ∀ (l : List V2Order) (r : Int) (nid : Nat),
      (∀ o ∈ l, o.status = "ACTIVE" ∧ 0 < o.quantity) →
      (matchLoopV2 username sideStr ds de now r nid l).trades.map tradeQtyPair
        = specMatchTrades r (l.map (fun o => (o.price, o.quantity))) := by
  intro l
  induction l with
  | nil =>
    intro r nid _
    simp [matchLoopV2, specMatchTrades]
  | cons o rest ih =>
    intro r nid h
    have ho := h o (List.mem_cons_self o rest)
    have hrest : ∀ o2 ∈ rest, o2.status = "ACTIVE" ∧ 0 < o2.quantity :=
      fun o2 ho2 => h o2 (List.mem_cons_of_mem _ ho2)
    by_cases h1 : r ≤ 0
    · rw [matchLoopV2, if_pos h1]
      simp [specMatchTrades, if_pos h1]
    · have hskip : ¬ (o.status ≠ "ACTIVE" ∨ o.quantity ≤ 0) := by
        rintro (hc | hc)
        · exact hc ho.1
        · omega
      have htq : ¬ (min r o.quantity ≤ 0) := by
        have := ho.2
        omega
      rw [matchLoopV2, if_neg h1, if_neg hskip, if_neg htq]
      simp only [List.map_cons, specMatchTrades, if_neg h1]
      rw [ih (r - min r o.quantity) (nid + 1) hrest]
      rfl

/-! ## Claim C6 -/

/-- Claim C6: an admitted FOK order (auth, shape, window, collateral and
self-match all passing) never partially fills and never rests: when the
total crossable quantity is strictly below the order quantity, the
response is 200 / CANCELLED with `filled_quantity = 0` and the state is
completely untouched; otherwise the response is 200 / FILLED with
`filled_quantity = quantity`, the appended trades sum to exactly the
order quantity, and no order is added to the book. -/
theorem c6_fok_all_or_nothing
    (st : ExchangeState) (token sideStr : String)
    (price quantity ds de now : Int) (username : String)
    (hTok : dget st.tokens token = some username)
    (hS : sideStr = "buy" ∨ sideStr = "sell")
    (hQ : 0 < quantity)
    (hA1 : ds % 3600000 = 0) (hA2 : de % 3600000 = 0)
    (hLt : ds < de) (hW : de - ds = 3600000)
    (hWin1 : ds - 1296000000 ≤ now) (hWin2 : now ≤ ds - 60000)
    (hColl : checkCollateralCreate st username sideStr price quantity = true)
    (hSelf : ((submitCandidates st sideStr price ds de).any
      (fun c => c.owner == username)) = false) :
    (handleSubmitOrderV2 st token sideStr price quantity ds de "FOK" now).http = 200
    ∧ (sumQty (submitCandidates st sideStr price ds de) < quantity →
        (handleSubmitOrderV2 st token sideStr price quantity ds de "FOK" now).order_status
          = "CANCELLED"
        ∧ (handleSubmitOrderV2 st token sideStr price quantity ds de "FOK"
            now).filled_quantity = 0
        ∧ (handleSubmitOrderV2 st token sideStr price quantity ds de "FOK" now).st = st)
    ∧ (quantity ≤ sumQty (submitCandidates st sideStr price ds de) →
        (handleSubmitOrderV2 st token sideStr price quantity ds de "FOK" now).order_status
          = "FILLED"
        ∧ (handleSubmitOrderV2 st token sideStr price quantity ds de "FOK"
            now).filled_quantity = quantity
        ∧ (∃ ts, (handleSubmitOrderV2 st token sideStr price quantity ds de "FOK"
              now).st.trades = st.trades ++ ts ∧ tradeQtySum ts = quantity)
        ∧ (handleSubmitOrderV2 st token sideStr price quantity ds de "FOK"
            now).st.v2_orders.length = st.v2_orders.length) := by
  have hfokdef : (if ("FOK" : String) = "" then "GTC" else "FOK") = "FOK" := rfl
  have hsideOk : ¬ (sideStr ≠ "buy" ∧ sideStr ≠ "sell") := by
    rcases hS with rfl | rfl <;> simp
  have hqOk : ¬ quantity ≤ 0 := by omega
  have halignOk : ¬ (ds % 3600000 ≠ 0 ∨ de % 3600000 ≠ 0) := by simp [hA1, hA2]
  have hdeOk : ¬ de ≤ ds := by omega
  have hwOk : ¬ de - ds ≠ 3600000 := by simp [hW]
  have hwin : tradingWindowError now ds = none := by
    unfold tradingWindowError
    rw [if_neg (by omega), if_neg (by omega)]
  have hphase : handleSubmitOrderV2 st token sideStr price quantity ds de "FOK" now
      = submitMatchPhase st username sideStr price quantity ds de "FOK" now := by
    unfold handleSubmitOrderV2
    rw [hTok]
    dsimp only
    simp only [hfokdef]
    rw [if_neg (by decide), if_neg hsideOk, if_neg hqOk, if_neg halignOk,
      if_neg hdeOk, if_neg hwOk, hwin]
    dsimp only
    rw [if_neg (by simp [hColl])]
  have hact := submitCandidates_active st sideStr price ds de
  by_cases hc : sumQty (submitCandidates st sideStr price ds de) < quantity
  · have hfoklt : fokTotalPossible quantity 0
        (submitCandidates st sideStr price ds de) < quantity :=
      (fokTotalPossible_lt_iff quantity _ hact 0).mpr (by omega)
    have hres : handleSubmitOrderV2 st token sideStr price quantity ds de "FOK" now
        = ⟨200, st.nextId, "CANCELLED", 0, st⟩ := by
      rw [hphase]
      unfold submitMatchPhase
      dsimp only
      rw [if_neg (by simp [hSelf]), if_pos ⟨rfl, hfoklt⟩]
    rw [hres]
    exact ⟨rfl, fun _ => ⟨rfl, rfl, rfl⟩, fun hsum => absurd hsum (by omega)⟩
  · have hsum : quantity ≤ sumQty (submitCandidates st sideStr price ds de) := by
      omega
    have hfokge : ¬ fokTotalPossible quantity 0
        (submitCandidates st sideStr price ds de) < quantity := by
      rw [fokTotalPossible_lt_iff quantity _ hact 0]
      omega
    have hrem : (matchLoopV2 username sideStr ds de now quantity (st.nextId + 1)
        (submitCandidates st sideStr price ds de)).remaining = 0 :=
      matchLoopV2_fills username sideStr ds de now _ quantity (st.nextId + 1)
        hact (by omega) hsum
    have hadd := matchLoopV2_remaining_add username sideStr ds de now
      (submitCandidates st sideStr price ds de) quantity (st.nextId + 1)
    have hres : handleSubmitOrderV2 st token sideStr price quantity ds de "FOK" now
        = ⟨200, st.nextId, "FILLED",
            quantity - (matchLoopV2 username sideStr ds de now quantity
              (st.nextId + 1) (submitCandidates st sideStr price ds de)).remaining,
            tradedState st
              (writebackOrders st.v2_orders
                (matchLoopV2 username sideStr ds de now quantity (st.nextId + 1)
                  (submitCandidates st sideStr price ds de)).book)
              (matchLoopV2 username sideStr ds de now quantity (st.nextId + 1)
                (submitCandidates st sideStr price ds de)).trades
              (matchLoopV2 username sideStr ds de now quantity (st.nextId + 1)
                (submitCandidates st sideStr price ds de)).nid⟩ := by
      rw [hphase]
      unfold submitMatchPhase
      dsimp only
      rw [if_neg (by simp [hSelf]), if_neg (fun hand => hfokge hand.2),
        if_neg (by simp)]
      rfl
    rw [hres]
    refine ⟨rfl, fun hlt => absurd hlt (by omega), fun _ => ⟨rfl, ?_, ?_, ?_⟩⟩
    · show quantity - _ = quantity
      rw [hrem]
      ring
    · refine ⟨(matchLoopV2 username sideStr ds de now quantity (st.nextId + 1)
        (submitCandidates st sideStr price ds de)).trades, rfl, ?_⟩
      omega
    · show (writebackOrders st.v2_orders _).length = st.v2_orders.length
      unfold writebackOrders
      exact List.length_map _ _

/-- Claim C6 witness: against a book with a single resting sell of 5,
an FOK buy of 10 cancels with no state change, and an FOK buy of 5
fills completely. -/
theorem c6_fok_all_or_nothing_witness :
    ((handleSubmitOrderV2 sellBookSt "tB" "buy" 100 10 ds0 de0 "FOK" 1000).order_status
      = "CANCELLED"
    ∧ (handleSubmitOrderV2 sellBookSt "tB" "buy" 100 10 ds0 de0 "FOK"
        1000).filled_quantity = 0
    ∧ (handleSubmitOrderV2 sellBookSt "tB" "buy" 100 10 ds0 de0 "FOK" 1000).st
        = sellBookSt)
    ∧ ((handleSubmitOrderV2 sellBookSt "tB" "buy" 100 5 ds0 de0 "FOK" 1000).order_status
      = "FILLED"
    ∧ (handleSubmitOrderV2 sellBookSt "tB" "buy" 100 5 ds0 de0 "FOK"
        1000).filled_quantity = 5) := by
  have h1 := c6_fok_all_or_nothing sellBookSt "tB" "buy" 100 10 ds0 de0 1000 "B"
    (by decide) (Or.inl rfl) (by decide) (by decide) (by decide) (by decide)
    (by decide) (by decide) (by decide) (by decide) (by decide)
  have h2 := c6_fok_all_or_nothing sellBookSt "tB" "buy" 100 5 ds0 de0 1000 "B"
    (by decide) (Or.inl rfl) (by decide) (by decide) (by decide) (by decide)
    (by decide) (by decide) (by decide) (by decide) (by decide)
  have h1c := h1.2.1 (by decide)
  have h2c := h2.2.2 (by decide)
  exact ⟨⟨h1c.1, h1c.2.1, h1c.2.2⟩, ⟨h2c.1, h2c.2.1⟩⟩

/-! ## Claim C7 -/

/-- Claim C7: matching consumes resting orders in price-time priority —
the candidate list is stably sorted by the (price key, created_at) pair
so consecutive candidates are ordered by it; along that list each trade
carries the resting (maker) order's price and quantity
`min(remaining, resting.quantity)`, exactly as the spec's reference
loop computes; and the concrete S1 scenario (A sells 10 @ 100, B sells
10 @ 100 later, C buys 15 @ 100) produces exactly the trades
A:10 @ 100 then B:5 @ 100, leaves B ACTIVE with quantity 5, A FILLED,
and reports C fully filled. -/
theorem c7_price_time_priority :
    (∀ (key : V2Order → Int × Int) (l : List V2Order),
      (sortByKey key l).Pairwise (fun a b => lexLe (key a) (key b) = true))
    ∧ (∀ (username sideStr : String) (ds de now : Int) (l : List V2Order)
        (r : Int) (nid : Nat),
        (∀ o ∈ l, o.status = "ACTIVE" ∧ 0 < o.quantity) →
        (matchLoopV2 username sideStr ds de now r nid l).trades.map tradeQtyPair
          = specMatchTrades r (l.map (fun o => (o.price, o.quantity))))
    ∧ (s1Result.http = 200 ∧ s1Result.order_status = "FILLED"
       ∧ s1Result.filled_quantity = 15
       ∧ s1Result.st.trades.map
           (fun t => (t.buyer_id, t.seller_id, t.price, t.quantity))
           = [("C", "A", 100, 10), ("C", "B", 100, 5)]
       ∧ s1Result.st.v2_orders.map (fun o => (o.owner, o.status, o.quantity))
           = [("A", "FILLED", 0), ("B", "ACTIVE", 5)]) := by
  refine ⟨fun key l => pairwise_sortByKey key l,
    fun username sideStr ds de now l r nid h =>
      matchLoopV2_spec username sideStr ds de now l r nid h,
    ?_, ?_, ?_, ?_, ?_⟩ <;> decide

/-- Claim C7 witness: the refinement part applied to the concrete S1
book (A's earlier sell before B's at the same price). -/
theorem c7_price_time_priority_witness :
    (matchLoopV2 "C" "buy" ds0 de0 3000 15 5
      [⟨1, "sell", "A", 100, 10, ds0, de0, "ACTIVE", 1000, 10⟩,
       ⟨2, "sell", "B", 100, 10, ds0, de0, "ACTIVE", 2000, 10⟩]).trades.map
        tradeQtyPair
      = specMatchTrades 15
        (([⟨1, "sell", "A", 100, 10, ds0, de0, "ACTIVE", 1000, 10⟩,
           ⟨2, "sell", "B", 100, 10, ds0, de0, "ACTIVE", 2000, 10⟩] :
            List V2Order).map (fun o => (o.price, o.quantity))) :=
  c7_price_time_priority.2.1 "C" "buy" ds0 de0 3000
    [⟨1, "sell", "A", 100, 10, ds0, de0, "ACTIVE", 1000, 10⟩,
     ⟨2, "sell", "B", 100, 10, ds0, de0, "ACTIVE", 2000, 10⟩] 15 5 (by decide)

end Exchange
